import Mathlib

/-!
SIP transport-and-transaction engine (`pkg/gbs/sip`)

A shallow embedding of the request router (`context.go`), the server dispatch
and framing code (`server.go`) and the packet reader (`connection.go`),
followed by the properties proved about them.

Conventions of the embedding:

* a Go `int8` is an `Int` kept in range by `toInt8` (two's-complement
  wrap-around), a Go `int` is an `Int`, a byte is a `Nat`;
* a Go map is an association list read with `List.lookup`; writing a key
  puts the new pair in front, so the latest value is the one found;
* a runtime panic is an explicit result (`Status.panicked`, `Except.error`);
* a goroutine started with `go` is recorded as a `Goroutine` that is run separately;
* functions and types of the package that live in files outside this
  development are fields of `Deps` or are modelled and marked as such.
-/

namespace Sip

/-! ## Machine integers and bytes -/

/-- A byte of a network buffer. -/
abbrev Byte := Nat

/-- Conversion of an integer to Go `int8` (wraps modulo 256 into -128..127). -/
def toInt8 (x : Int) : Int := (x + 128) % 256 - 128

/-- The constant `abortIndex int8 = math.MaxInt8 >> 1` of context.go. -/
def abortIndex : Int := toInt8 (127 >>> 1)

/-- The bytes of an ASCII string literal. -/
def asciiBytes (s : String) : List Byte := s.data.map Char.toNat

/-- The function `strings.ToUpper`: a string of ASCII characters only has its
letters a to z replaced by A to Z; any other string is mapped character by
character through the case table `unicode.ToUpper`, here `upperRune`. -/
def toUpper (upperRune : Char → Char) (s : String) : String :=
  if s.data.all (fun c => c.toNat < 128) then String.mk (s.data.map Char.toUpper)
  else String.mk (s.data.map upperRune)

/-- Modelled from the spec: the folding of case under which header names are
compared; header names are ASCII tokens. -/
def foldCase (s : String) : String := String.mk (s.data.map Char.toUpper)

/-! ## Message model

The message, header and transaction types are declared in files that are not
part of this development; the structures below keep the fields the engine reads
and writes. -/

/-- A `Connection`; `network` is the result of `Network()`. -/
structure Connection where
  id : Nat
  network : String
  deriving DecidableEq, Repr

/-- Modelled from the spec: header parameters (`Params`), an ordered collection
of named parameters whose value is optional (`rport` carries none). -/
abbrev Params := List (String × Option String)

/-- Modelled from the spec: `Params.Has(key)`. -/
def Params.Has (p : Params) (key : String) : Bool := (p.lookup key).isSome

/-- Modelled from the spec: `Params.Get(key)`, the value stored under `key`. -/
def Params.Get (p : Params) (key : String) : Option (Option String) := p.lookup key

/-- Modelled from the spec: `Params.Add(key, val)` sets the parameter, replacing
the value of a key already present and appending a new key otherwise. -/
def Params.Add : Params → String → Option String → Params
  | [], key, val => [(key, val)]
  | (k, v) :: rest, key, val =>
    if k = key then (k, val) :: rest else (k, v) :: Params.Add rest key val

/-- One hop of a Via header; `params = none` is the nil `Params` of Go. -/
structure ViaHop where
  host : String
  port : Option Nat
  params : Option Params
  deriving DecidableEq, Repr

/-- An address: `user = none` is the nil user part. -/
structure Address where
  user : Option String
  host : String
  deriving DecidableEq, Repr

/-- A From header: `address = none` is the nil `Address` pointer. -/
structure FromHeader where
  address : Option Address
  deriving DecidableEq, Repr

/-- Modelled from the spec: a header of a message as the wire format has it, a
name and a value; `String()` renders it as `Name: value`. -/
structure Header where
  name : String
  value : String
  deriving DecidableEq, Repr

/-- Modelled from the spec: the method `Header.String`. -/
def Header.String (h : Header) : String := h.name ++ ": " ++ h.value

/-- A request. `fromHeader = none` means `From()` reports no header; `via` holds
the hops of the Via header, `[]` when `ViaHop()` reports none; `headers` is the
ordered header collection as `GetHeaders` reads it. -/
structure Request where
  method : String
  fromHeader : Option FromHeader
  via : List ViaHop
  callID : String
  contentLength : Option Nat
  body : List Byte
  source : String
  dest : String
  conn : Connection
  headers : List Header := []
  deriving DecidableEq, Repr

/-- Modelled from the spec: the method `GetHeaders(name)`, the headers of that
name in message order, the name compared without regard to case. -/
def Request.GetHeaders (req : Request) (name : String) : List Header :=
  req.headers.filter fun h => foldCase h.name == foldCase name

/-- A response. -/
structure Response where
  status : Nat
  reason : String
  via : List ViaHop
  callID : String
  body : List Byte
  source : String
  dest : String
  conn : Connection
  deriving DecidableEq, Repr

/-- The `Message` interface with its two implementations. -/
inductive Message where
  | request (req : Request)
  | response (resp : Response)
  deriving DecidableEq, Repr

/-- Modelled from the spec: a transaction, the record of one exchange, holding
its correlation key and the connection its replies go out on. -/
structure Transaction where
  key : String
  conn : Connection
  deriving DecidableEq, Repr

/-- Functions of the package that the embedded code calls and whose bodies are
in files outside this development. -/
structure Deps where
  /-- The function `getTXKey(msg)`. -/
  getTXKey : Message → String
  /-- The call `XMLDecode(body, &msg)` followed by reading `msg.CmdType`; `none` is a decode error. -/
  xmlCmdType : List Byte → Option String
  /-- The call `l.Equals(0)` on a Content-Length header of value `l`. -/
  contentLengthIsZero : Nat → Bool
  /-- The call `GenerateBranch()`. -/
  generateBranch : String
  /-- The call `Port.String()`. -/
  portString : Option Nat → String
  /-- The call `NewAddressFromFromHeader(header)`. -/
  newAddressFromFromHeader : FromHeader → Address
  /-- The error result of `tx.Request(req)`; `none` is a nil error. -/
  txRequest : Transaction → Request → Option String
  /-- The case table `unicode.ToUpper` of the standard library. -/
  unicodeToUpper : Char → Char

/-! ## Router context (`context.go`) -/

/-- A value of Go type `any` held in the cache of a Context. -/
inductive AnyVal where
  | nil
  | str (s : String)
  | int (n : Int)
  | other (tag : Nat)
  deriving DecidableEq, Repr

/-- What a handler does with the Context it is given, in program order. -/
inductive Op where
  /-- The call `c.Abort()`. -/
  | abort
  /-- The call `c.Next()`. -/
  | next
  /-- The call `c.Set(k, v)`. -/
  | set (k : String) (v : AnyVal)
  /-- The call `c.String(status, msg)`. -/
  | string (status : Nat) (msg : String)
  deriving DecidableEq, Repr

/-- A `HandlerFunc`, seen through the sequence of Context methods it calls. -/
abbrev HandlerFunc := List Op

/-- A handler chain; `none` is a nil entry. -/
abbrev HandlersChain := List (Option HandlerFunc)

/-- The struct `Context`. -/
structure Context where
  request : Request
  tx : Transaction
  handlers : HandlersChain
  index : Int
  cache : List (String × AnyVal)
  deviceID : String
  host : String
  port : String
  source : Option String
  toAddr : Option Address
  fromAddr : Option Address
  deriving DecidableEq, Repr

/-- The errors of `parserRequest`. -/
inductive ParseErr where
  | reqFromIsNil
  | headerAddressIsNil
  | addressUserIsNil
  | viaIsNil
  deriving DecidableEq, Repr

/-- The method `Context.parserRequest`: the context after the call and the error returned. -/
def Context.parserRequest (D : Deps) (c : Context) : Context × Option ParseErr :=
  let req := c.request
  match req.fromHeader with
  | none => (c, some .reqFromIsNil)
  | some header =>
    match header.address with
    | none => (c, some .headerAddressIsNil)
    | some address =>
      match address.user with
      | none => (c, some .addressUserIsNil)
      | some user =>
        let c := { c with deviceID := user, host := address.host }
        match req.via with
        | [] => (c, some .viaIsNil)
        | via :: _ =>
          let c := { c with host := via.host, port := D.portString via.port }
          let c := { c with source := some req.source,
                            toAddr := some (D.newAddressFromFromHeader header) }
          (c, none)

/-- The function `newContext`: the context built and the error it logged, if any. -/
def newContext (D : Deps) (req : Request) (tx : Transaction) : Context × Option ParseErr :=
  let c : Context :=
    { request := req, tx := tx, handlers := [], index := -1, cache := [],
      deviceID := "", host := "", port := "", source := none, toAddr := none, fromAddr := none }
  c.parserRequest D

/-- The method `Context.Abort`. -/
def Context.Abort (c : Context) : Context := { c with index := abortIndex }

/-- The method `Context.Set`. -/
def Context.Set (c : Context) (k : String) (v : AnyVal) : Context :=
  { c with cache := (k, v) :: c.cache }

/-- The method `Context.Get`. -/
def Context.Get (c : Context) (k : String) : AnyVal × Bool :=
  match c.cache.lookup k with
  | some v => (v, true)
  | none => (.nil, false)

/-- A runtime panic: a failed type assertion `v.(T)`, or a call `make([]byte, n)`
with a length the runtime does not allocate (makeslice: len out of range). -/
inductive Panic where
  | interfaceConversion (v : AnyVal)
  | makesliceLenOutOfRange
  deriving DecidableEq, Repr

/-- The method `Context.GetMustString`; `v.(string)` panics when `v` is not a string. -/
def Context.GetMustString (c : Context) (k : String) : Except Panic String :=
  match c.cache.lookup k with
  | some v =>
    match v with
    | .str s => .ok s
    | _ => .error (.interfaceConversion v)
  | none => .ok ""

/-- The method `Context.GetMustInt`; `v.(int)` panics when `v` is not an int. -/
def Context.GetMustInt (c : Context) (k : String) : Except Panic Int :=
  match c.cache.lookup k with
  | some v =>
    match v with
    | .int n => .ok n
    | _ => .error (.interfaceConversion v)
  | none => .ok 0

/-- The function `strings.Split` for a one-character separator. -/
def stringsSplit (sep : Char) : List Char → List (List Char)
  | [] => [[]]
  | c :: rest =>
    if c = sep then [] :: stringsSplit sep rest
    else
      match stringsSplit sep rest with
      | part :: parts => (c :: part) :: parts
      | [] => [[c]]

/-- The function `unicode.IsSpace`. -/
def isSpace (c : Char) : Bool :=
  c.toNat ∈ [9, 10, 11, 12, 13, 32, 0x85, 0xA0, 0x1680, 0x2028, 0x2029, 0x202F, 0x205F, 0x3000]
    || (0x2000 ≤ c.toNat && c.toNat ≤ 0x200A)

/-- The function `strings.TrimSpace`. -/
def stringsTrimSpace (s : List Char) : List Char :=
  ((s.dropWhile isSpace).reverse.dropWhile isSpace).reverse

/-- The method `Context.GetHeader`. -/
def Context.GetHeader (c : Context) (key : String) : String :=
  match c.request.GetHeaders key with
  | header :: _ =>
    match stringsSplit ':' header.String.data with
    | [_, value] => String.mk (stringsTrimSpace value)
    | _ => ""
  | [] => ""

/-- A call `tx.Respond(NewResponseFromRequest("", req, status, reason, body))`. -/
structure Sent where
  tx : Transaction
  req : Request
  status : Nat
  reason : String
  body : List Byte
  deriving DecidableEq, Repr

/-- How a run stands: nothing went wrong so far, it was stopped by a runtime
panic, or it was cut short because the evaluation budget ran out. -/
inductive Status where
  | ok
  | panicked
  | outOfFuel
  deriving DecidableEq, Repr

/-- A run of a handler chain: the context, the positions of the handlers entered
so far (oldest first), the responses sent so far, and the status. -/
structure Exec where
  ctx : Context
  trace : List Nat
  sent : List Sent
  status : Status
  deriving DecidableEq, Repr

/-- The increment `c.index++` on the `int8` cursor. -/
def Exec.incr (e : Exec) : Exec :=
  { e with ctx := { e.ctx with index := toInt8 (e.ctx.index + 1) } }

mutual
/-- The `for` loop of `Context.Next`, entered at its condition. Indexing
`c.handlers` out of range panics. -/
def nextLoop : Nat → Exec → Exec
  | 0, e => { e with status := .outOfFuel }
  | fuel + 1, e =>
    if e.status ≠ .ok then e
    else if e.ctx.index < toInt8 e.ctx.handlers.length then
      if e.ctx.index < 0 then { e with status := .panicked }
      else
        match e.ctx.handlers.get? e.ctx.index.toNat with
        | none => { e with status := .panicked }
        | some none => nextLoop fuel e.incr
        | some (some fn) =>
          nextLoop fuel
            (call fuel fn { e with trace := e.trace ++ [e.ctx.index.toNat] }).incr
    else e
/-- The call `fn(c)` of a handler, one Context method at a time. -/
def call : Nat → HandlerFunc → Exec → Exec
  | 0, _, e => { e with status := .outOfFuel }
  | _ + 1, [], e => e
  | fuel + 1, op :: ops, e =>
    if e.status ≠ .ok then e
    else
      match op with
      | .abort => call fuel ops { e with ctx := e.ctx.Abort }
      | .next => call fuel ops (nextLoop fuel e.incr)
      | .set k v => call fuel ops { e with ctx := e.ctx.Set k v }
      | .string status msg =>
        call fuel ops { e with sent := e.sent ++ [⟨e.ctx.tx, e.ctx.request, status, msg, []⟩] }
end

/-- The method `Context.Next`. -/
def Next (fuel : Nat) (e : Exec) : Exec := nextLoop fuel e.incr

/-- The start of a run on a context. -/
def Exec.start (c : Context) : Exec :=
  { ctx := c, trace := [], sent := [], status := .ok }

/-! ## Server (`server.go`) -/

/-- The method constant `MethodMessage`. -/
def MethodMessage : String := "MESSAGE"

/-- The method constant `MethodNotify`. -/
def MethodNotify : String := "NOTIFY"

/-- Modelled from the spec: the transaction registry `transacionts`, a map from
transaction key to transaction. -/
structure Transacionts where
  txs : List (String × Transaction)
  deriving DecidableEq, Repr

/-- Modelled from the spec: the registry lookup `transacionts.getTX(key)`, which
reports the transaction stored under `key`, or nil, and changes nothing. -/
def Transacionts.getTX (txs : Transacionts) (key : String) : Option Transaction :=
  txs.txs.lookup key

/-- Modelled from the spec: the registry insertion `transacionts.newTX(key, conn)`,
which creates a transaction for `key` replying on `conn`, stores it under `key`
and returns it. -/
def Transacionts.newTX (txs : Transacionts) (key : String) (conn : Connection) :
    Transaction × Transacionts :=
  let tx : Transaction := { key := key, conn := conn }
  (tx, { txs := (key, tx) :: txs.txs })

/-- The struct `Server`: the shared UDP connection, the transaction registry,
the route table, the UDP port, the resolved self IP in text form
(`s.host.String()`) and the server address. -/
structure Server where
  udpConn : Connection
  txs : Transacionts
  route : List (String × HandlersChain)
  port : Option Nat
  host : String
  fromAddr : Option Address
  deriving DecidableEq, Repr

/-- The method `Server.addRoute`. -/
def Server.addRoute (D : Deps) (s : Server) (method : String) (handler : HandlersChain) :
    Server :=
  { s with route := (toUpper D.unicodeToUpper method, handler) :: s.route }

/-- The method `Server.getTX`. -/
def Server.getTX (s : Server) (key : String) : Option Transaction := s.txs.getTX key

/-- The method `Server.mustTX`: the transaction returned and the server afterwards. -/
def Server.mustTX (D : Deps) (s : Server) (msg : Request) : Transaction × Server :=
  let key := D.getTXKey (.request msg)
  match s.txs.getTX key with
  | some tx => (tx, s)
  | none =>
    if msg.conn.network = "udp" then
      let (tx, txs) := s.txs.newTX key s.udpConn
      (tx, { s with txs := txs })
    else
      let (tx, txs) := s.txs.newTX key msg.conn
      (tx, { s with txs := txs })

/-- The function `handlerMethodNotAllowed`: the responses it sends. -/
def handlerMethodNotAllowed (req : Request) (tx : Transaction) : List Sent :=
  [{ tx := tx, req := req, status := 405, reason := "Method Not Allowed", body := [] }]

/-- A goroutine started by the dispatcher. -/
inductive Goroutine where
  /-- The statement `go handlerMethodNotAllowed(msg, tx)`. -/
  | methodNotAllowed (req : Request) (tx : Transaction)
  /-- The statement `go ctx.Next()`. -/
  | next (ctx : Context)
  deriving DecidableEq, Repr

/-- What was written to the log. -/
inductive LogEntry where
  | contentLengthIsEmpty
  | xmlDecodeErr
  | notFoundHandlerFunc
  | parserRequest (err : ParseErr)
  deriving DecidableEq, Repr

/-- The outcome of `handlerRequest`: the server afterwards, the log lines
written and the goroutine started, if any. -/
structure Dispatch where
  srv : Server
  logs : List LogEntry
  spawned : Option Goroutine
  deriving DecidableEq, Repr

/-- The route key `handlerRequest` computes before upper-casing: the method, with
the command type appended for MESSAGE and NOTIFY; an error is the log line of
the early return. -/
def dispatchKey (D : Deps) (msg : Request) : Except LogEntry String :=
  let key := msg.method
  if key = MethodMessage ∨ key = MethodNotify then
    match msg.contentLength with
    | none => .error .contentLengthIsEmpty
    | some l =>
      if D.contentLengthIsZero l then .error .contentLengthIsEmpty
      else
        match D.xmlCmdType msg.body with
        | none => .error .xmlDecodeErr
        | some cmdType => .ok (key ++ "-" ++ cmdType)
  else .ok key

/-- The method `Server.handlerRequest`. -/
def Server.handlerRequest (D : Deps) (s : Server) (msg : Request) : Dispatch :=
  let (tx, s) := s.mustTX D msg
  match dispatchKey D msg with
  | .error l => { srv := s, logs := [l], spawned := none }
  | .ok key =>
    match s.route.lookup (toUpper D.unicodeToUpper key) with
    | none =>
      { srv := s, logs := [.notFoundHandlerFunc], spawned := some (.methodNotAllowed msg tx) }
    | some handlers =>
      let (ctx, err) := newContext D msg tx
      let logs := match err with
        | some e => [LogEntry.parserRequest e]
        | none => []
      let ctx := { ctx with handlers := handlers, fromAddr := s.fromAddr }
      { srv := s, logs := logs, spawned := some (.next ctx) }

/-- What a goroutine started by the dispatcher did: the positions of the chain
handlers it entered and the responses it sent. -/
structure Ran where
  executed : List Nat
  sent : List Sent
  deriving DecidableEq, Repr

/-- Running a goroutine started by the dispatcher. -/
def Goroutine.run (fuel : Nat) : Goroutine → Ran
  | .methodNotAllowed req tx => { executed := [], sent := handlerMethodNotAllowed req tx }
  | .next ctx =>
    let e := Next fuel (Exec.start ctx)
    { executed := e.trace, sent := e.sent }

/-- The outcome of `handlerResponse`: the server afterwards and the calls
`tx.receiveResponse(msg)` made. -/
structure Delivery where
  srv : Server
  received : List (Transaction × Response)
  deriving DecidableEq, Repr

/-- The method `Server.handlerResponse`. -/
def Server.handlerResponse (D : Deps) (s : Server) (msg : Response) : Delivery :=
  match s.getTX (D.getTXKey (.response msg)) with
  | none => { srv := s, received := [] }
  | some tx => { srv := s, received := [(tx, msg)] }

/-- The errors `Server.Request` returns itself. -/
inductive RequestErr where
  | missingVia
  | send (err : String)
  deriving DecidableEq, Repr

/-- The outcome of `Server.Request`: the two results, the server and the request
afterwards, and the calls `tx.Request(req)` made. -/
structure RequestResult where
  tx : Option Transaction
  err : Option RequestErr
  srv : Server
  req : Request
  sent : List (Transaction × Request)
  deriving DecidableEq, Repr

/-- The method `Server.Request`. -/
def Server.Request (D : Deps) (s : Server) (req : Request) : RequestResult :=
  match req.via with
  | [] => { tx := none, err := some .missingVia, srv := s, req := req, sent := [] }
  | viaHop :: rest =>
    let viaHop := { viaHop with host := s.host, port := s.port }
    let params : Params :=
      match viaHop.params with
      | none => Params.Add [] "branch" (some D.generateBranch)
      | some p => p
    let params := if !params.Has "rport" then params.Add "rport" none else params
    let viaHop := { viaHop with params := some params }
    let req := { req with via := viaHop :: rest }
    let (tx, s) := s.mustTX D req
    { tx := some tx, err := (D.txRequest tx req).map RequestErr.send, srv := s, req := req,
      sent := [(tx, req)] }

/-! ## Packets and framing (`connection.go`, `Server.ProcessTcpConn`) -/

/-- The errors of `io.ReadFull`. -/
inductive ReadErr where
  | EOF
  | ErrUnexpectedEOF
  deriving DecidableEq, Repr

/-- The result of `io.ReadFull(reader, buf)`: the buffer afterwards, the number of
bytes read, the error, and the input left unread. -/
structure ReadFull where
  buf : List Byte
  n : Nat
  err : Option ReadErr
  rest : List Byte
  deriving DecidableEq, Repr

/-- The call `io.ReadFull(reader, buf)` for a zeroed `buf` of `len` bytes on a
reader with `input` unread: it reads until the buffer is full or the input ends,
and reports `EOF` when nothing was read, `ErrUnexpectedEOF` when the input ended
part-way. -/
def ioReadFull (len : Nat) (input : List Byte) : ReadFull :=
  { buf := input.take len ++ List.replicate (len - input.length) 0,
    n := min len input.length,
    err := if len ≤ input.length then none
           else if input.length = 0 then some .EOF else some .ErrUnexpectedEOF,
    rest := input.drop len }

/-- The call `make([]byte, n)`: a zeroed slice of `n` bytes. A negative length
and a length above `maxAlloc`, the most the runtime allocates for a slice,
panic. -/
def makeBytes (maxAlloc : Nat) (n : Int) : Except Panic (List Byte) :=
  if n < 0 ∨ (maxAlloc : Int) < n then .error .makesliceLenOutOfRange
  else .ok (List.replicate n.toNat 0)

/-- The struct `Packet`: the unread bytes of its reader and the body length (a Go
`int`) computed when the packet was made. -/
structure Packet where
  reader : List Byte
  bodylength : Int
  deriving DecidableEq, Repr

/-- The method `Packet.bodyLength`. -/
def Packet.bodyLength (p : Packet) : Int := p.bodylength

/-- The method `Packet.getBody`: the body and error returned, or the panic of
`make([]byte, p.bodylength)`. -/
def Packet.getBody (maxAlloc : Nat) (p : Packet) : Except Panic (List Byte × Option ReadErr) :=
  if p.bodyLength < 1 then .ok ([], none)
  else
    match makeBytes maxAlloc p.bodylength with
    | .error e => .error e
    | .ok body =>
      if p.bodylength > 0 then
        let r := ioReadFull body.length p.reader
        if r.err ≠ none ∧ r.err ≠ some .ErrUnexpectedEOF then .ok (r.buf, r.err)
        else if (r.n : Int) ≠ p.bodylength then .ok (r.buf.take r.n, none)
        else .ok (r.buf, none)
      else .ok (body, none)

/-- The call `reader.ReadBytes(delim)`: the bytes up to and including the first
`delim` and the input left; `none` when the input ends first (an error). -/
def readBytes (delim : Byte) : List Byte → Option (List Byte × List Byte)
  | [] => none
  | b :: rest =>
    if b = delim then some ([b], rest)
    else
      match readBytes delim rest with
      | some (line, rest') => some (b :: line, rest')
      | none => none

/-- The function `strings.Contains`. -/
def stringsContains : List Byte → List Byte → Bool
  | [], sub => sub.isEmpty
  | b :: rest, sub => sub.isPrefixOf (b :: rest) || stringsContains rest sub

/-- The last element of `strings.Split(line, sep)` for a one-byte separator:
the text after the last separator, the whole line when there is none. -/
def splitLast (sep : Byte) (line : List Byte) : List Byte :=
  line.foldl (fun acc b => if b = sep then [] else acc ++ [b]) []

/-- The function `strings.Trim`: drops the leading and trailing bytes found in
`cutset`. -/
def stringsTrim (s cutset : List Byte) : List Byte :=
  ((s.dropWhile fun b => cutset.contains b).reverse.dropWhile fun b => cutset.contains b).reverse

/-- The value of a run of decimal digits, `none` if another byte occurs. -/
def digitsValue : Nat → List Byte → Option Nat
  | acc, [] => some acc
  | acc, b :: rest =>
    if 48 ≤ b ∧ b ≤ 57 then digitsValue (acc * 10 + (b - 48)) rest else none

/-- The function `strconv.Atoi` (64-bit `int`): an optional sign and at least one
decimal digit; `none` is a syntax or range error. -/
def atoi (s : List Byte) : Option Int :=
  let neg := s.head? = some 45
  let digits := if s.head? = some 45 ∨ s.head? = some 43 then s.tail else s
  if digits = [] then none
  else
    match digitsValue 0 digits with
    | none => none
    | some n =>
      let v : Int := if neg then -(n : Int) else n
      if -(2 : Int) ^ 63 ≤ v ∧ v < (2 : Int) ^ 63 then some v else none

/-- How the inner `for` loop of `Server.ProcessTcpConn` ends: it is left by
`break` with the buffer that is then forwarded as a packet, a read fails and the
function returns, or `make([]byte, bodyLen)` panics. -/
inductive FrameRead where
  | packet (data rest : List Byte)
  | readError
  | panicked (p : Panic)
  deriving DecidableEq, Repr

/-- The inner `for` loop of `Server.ProcessTcpConn` with `buffer` written and
`bodyLen` seen so far. The loop body runs once per line read, so a budget of one
more than the number of unread bytes is never used up. -/
def readFrame (maxAlloc : Nat) : Nat → List Byte → Int → List Byte → FrameRead
  | 0, _, _, _ => .readError
  | fuel + 1, buffer, bodyLen, input =>
    match readBytes 10 input with
    | none => .readError
    | some (line, rest) =>
      let buffer := buffer ++ line
      if line.length ≤ 2 then
        if bodyLen ≤ 0 then .packet buffer rest
        else
          match makeBytes maxAlloc bodyLen with
          | .error p => .panicked p
          | .ok bodyBuf =>
            let r := ioReadFull bodyBuf.length rest
            .packet (buffer ++ r.buf) r.rest
      else if stringsContains line (asciiBytes "Content-Length") then
        let value := stringsTrim (splitLast 58 line) (asciiBytes " \r\n")
        match atoi value with
        | some n => readFrame maxAlloc fuel buffer n rest
        | none => .packet buffer rest
      else readFrame maxAlloc fuel buffer bodyLen rest

/-- What the read loop of a connection did: the data of the packets handed to
the parser, in order, and the panic that ended it, if one did. -/
structure TcpRun where
  packets : List (List Byte)
  panic : Option Panic
  deriving DecidableEq, Repr

/-- The outer `for` loop of `Server.ProcessTcpConn`. -/
def tcpLoop (maxAlloc : Nat) : Nat → List Byte → TcpRun
  | 0, _ => { packets := [], panic := none }
  | fuel + 1, input =>
    match readFrame maxAlloc (input.length + 1) [] 0 input with
    | .readError => { packets := [], panic := none }
    | .panicked p => { packets := [], panic := some p }
    | .packet data rest =>
      { packets := data :: (tcpLoop maxAlloc fuel rest).packets,
        panic := (tcpLoop maxAlloc fuel rest).panic }

/-- The read loop of `Server.ProcessTcpConn` on the bytes a connection delivers
before it is closed. -/
def ProcessTcpConn (maxAlloc : Nat) (stream : List Byte) : TcpRun :=
  tcpLoop maxAlloc (stream.length + 1) stream

/-- The function `strings.TrimSuffix`. -/
def stringsTrimSuffix (s suffix : List Byte) : List Byte :=
  if suffix.isSuffixOf s then s.take (s.length - suffix.length) else s

/-- The method `Packet.nextLine`: the line and the error returned, and the packet
afterwards. `ReadString` fails with `EOF` when the input ends before a line
feed, having consumed what was left. -/
def Packet.nextLine (p : Packet) : (List Byte × Option ReadErr) × Packet :=
  match readBytes 10 p.reader with
  | none => (([], some .EOF), { p with reader := [] })
  | some (str, rest) =>
    let str := stringsTrimSuffix str [13, 10]
    let str := stringsTrimSuffix str [10]
    ((str, none), { p with reader := rest })

/-! ## Observer registry (`obs.go`, known through `obs_test.go`) -/

/-- Modelled from the spec: the callback type `ObserverHandler`, called with the
key and the arguments of a notification; the result says whether it is done. -/
abbrev ObserverHandler := String → List String → Bool

/-- Modelled from the spec: an observer entry, a callback plus the deadline after
which the entry is no longer live. -/
structure ObserverEntry where
  fn : ObserverHandler
  deadline : Nat

/-- Modelled from the spec: the `Observer` registry, a map `data` from key to
entry with at most one entry per key. `calls` records the callback invocations
made so far, each with the key and arguments passed. -/
structure Observer where
  data : List (String × ObserverEntry)
  calls : List (String × List String)

/-- Modelled from the spec: the constructor `NewObserver`, an empty registry. -/
def NewObserver : Observer := { data := [], calls := [] }

/-- Modelled from the spec: `Register(key, ttl, callback)` at time `now` installs
the callback under `key` with deadline `now + ttl`, in the place of an entry the
key may have had. -/
def Observer.Register (o : Observer) (now : Nat) (key : String) (ttl : Nat)
    (fn : ObserverHandler) : Observer :=
  { o with data := (key, { fn := fn, deadline := now + ttl }) ::
      o.data.filter fun e => e.1 != key }

/-- Modelled from the spec: the background sweep at time `now` removes the
entries whose deadline has elapsed; their callbacks are not invoked. -/
def Observer.sweep (o : Observer) (now : Nat) : Observer :=
  { o with data := o.data.filter fun e => now < e.2.deadline }

/-- Modelled from the spec: `Notify(key, args...)` at time `now` looks up the
entry of `key` and, if it is live, invokes its callback with `key` and `args`
and removes the entry when the callback signals completion. -/
def Observer.Notify (o : Observer) (now : Nat) (key : String) (args : List String) :
    Observer :=
  match o.data.lookup key with
  | none => o
  | some entry =>
    if now < entry.deadline then
      { data := if entry.fn key args then o.data.filter fun e => e.1 != key else o.data,
        calls := o.calls ++ [(key, args)] }
    else o

/-- The keys that have an entry in the registry. -/
def Observer.keys (o : Observer) : List String := o.data.map fun e => e.1

/-! ## Predicates used in the statements -/

/-- Whether a handler calls `Abort` without having called `Next` before it. -/
def callsAbort : HandlerFunc → Bool
  | [] => false
  | .abort :: _ => true
  | .next :: _ => false
  | _ :: rest => callsAbort rest

/-- Between two statements of a handler other than the one at position `i`: the
chain is `hs`, only positions up to `i` were entered, and the cursor is before
`i` or on or past the last position. -/
def BetweenCalls (hs : HandlersChain) (i : Nat) (e : Exec) : Prop :=
  e.ctx.handlers = hs ∧ (∀ j ∈ e.trace, j ≤ i) ∧
    (e.status = .ok →
      -128 ≤ e.ctx.index ∧ e.ctx.index ≤ 127 ∧
        (e.ctx.index < i ∨ (hs.length : Int) ≤ e.ctx.index + 1))

/-- At the loop condition of `Next`: the chain is `hs`, only positions up to `i`
were entered, and the cursor is at most `i` or past the last position. -/
def AtLoop (hs : HandlersChain) (i : Nat) (e : Exec) : Prop :=
  e.ctx.handlers = hs ∧ (∀ j ∈ e.trace, j ≤ i) ∧
    (e.status = .ok →
      -128 ≤ e.ctx.index ∧ e.ctx.index ≤ 127 ∧
        (e.ctx.index ≤ i ∨ (hs.length : Int) ≤ e.ctx.index))

/-- The request lacks a field `parserRequest` needs: no From header, a From
header without an address, a From address without a user part, or no Via hop. -/
def missingMandatoryField (req : Request) : Bool :=
  req.via.isEmpty ||
    match req.fromHeader with
    | none => true
    | some header =>
      match header.address with
      | none => true
      | some address => address.user.isNone

/-- The positions of the non-nil handlers of a chain, in ascending order, the
first position of the chain being `k`. -/
def nonNilPositions : Nat → HandlersChain → List Nat
  | _, [] => []
  | k, none :: rest => nonNilPositions (k + 1) rest
  | k, some _ :: rest => k :: nonNilPositions (k + 1) rest

/-- The largest number of Context calls a handler of the chain makes. -/
def opsBound : HandlersChain → Nat
  | [] => 0
  | none :: rest => opsBound rest
  | some fn :: rest => max fn.length (opsBound rest)

/-- An evaluation budget that is enough to run a chain whose handlers call
neither `Abort` nor `Next`. -/
def chainBudget (hs : HandlersChain) : Nat := hs.length + opsBound hs + 2

/-! ## Sample values for the worked examples -/

/-- A UDP connection. -/
def udp0 : Connection := { id := 0, network := "udp" }

/-- A TCP connection. -/
def tcp1 : Connection := { id := 1, network := "tcp" }

/-- An instance of the outside functions: the transaction key is the branch of
the top Via hop followed by the call identity; of the case table only the
ASCII letters and the dotless i are given. -/
def deps0 : Deps where
  getTXKey
    | .request r => (((r.via.head?.bind (·.params)).bind (·.lookup "branch")).join.getD "") ++ r.callID
    | .response r => (((r.via.head?.bind (·.params)).bind (·.lookup "branch")).join.getD "") ++ r.callID
  xmlCmdType _ := some "Catalog"
  contentLengthIsZero l := l == 0
  generateBranch := "z9hG4bK0"
  portString
    | none => ""
    | some p => toString p
  newAddressFromFromHeader h := h.address.getD { user := none, host := "" }
  txRequest _ _ := none
  unicodeToUpper c := if c = '\u0131' then 'I' else Char.toUpper c

/-- A REGISTER request from device 1000 with a Via hop carrying a branch,
received over UDP. -/
def register0 : Request :=
  { method := "REGISTER",
    fromHeader := some { address := some { user := some "1000", host := "10.0.0.9" } },
    via := [{ host := "10.0.0.9", port := some 5060, params := some [("branch", some "b1")] }],
    callID := "c1", contentLength := none, body := [],
    source := "10.0.0.9:5060", dest := "10.0.0.1:15060", conn := udp0 }

/-- A server listening on UDP port 15060 with no transaction and a REGISTER route
whose single handler answers 200. -/
def server0 : Server :=
  { udpConn := udp0, txs := { txs := [] }, route := [("REGISTER", [some [Op.string 200 "OK"]])],
    port := some 15060, host := "10.0.0.1", fromAddr := none }

/-- A chain of 65 handlers: the first calls `Abort`, the others do nothing. -/
def chain65 : HandlersChain := some [Op.abort] :: List.replicate 64 (some [])

/-- A fresh context for `register0` running the chain `hs`. -/
def context0 (hs : HandlersChain) : Context :=
  { (newContext deps0 register0 { key := "b1c1", conn := udp0 }).1 with handlers := hs }

/-- A REGISTER request without a From header. -/
def registerNoFrom : Request := { register0 with fromHeader := none }

/-- An INVITE request received over TCP. -/
def invite0 : Request := { register0 with method := "INVITE", conn := tcp1 }

/-- An outbound request whose Via hop has an empty, non-nil parameter set. -/
def outboundEmptyParams : Request :=
  { register0 with via := [{ host := "", port := none, params := some [] }] }

/-- An outbound request whose Via hop has no parameter set (nil). -/
def outboundNilParams : Request :=
  { register0 with via := [{ host := "", port := none, params := none }] }

/-- An outbound request without a Via header. -/
def outboundNoVia : Request := { register0 with via := [] }

/-- A server like `server0` that already holds a transaction under the key of
`register0`. -/
def server1 : Server :=
  { server0 with txs := { txs := [("b1c1", { key := "b1c1", conn := udp0 })] } }

/-- A 200 response to `register0`, received over UDP. -/
def response0 : Response :=
  { status := 200, reason := "OK",
    via := [{ host := "10.0.0.1", port := some 15060, params := some [("branch", some "b1")] }],
    callID := "c1", body := [], source := "10.0.0.9:5060", dest := "10.0.0.1:15060",
    conn := udp0 }

/-- A chain of 128 handlers that do nothing. -/
def chain128 : HandlersChain := List.replicate 128 (some [])

/-- A REGISTER request with an Expires header and a To header holding a SIP URI. -/
def registerWithHeaders : Request :=
  { register0 with
    headers := [{ name := "Expires", value := " 3600 " },
                { name := "To", value := "<sip:1000@10.0.0.9>" }] }

/-- A context for `registerWithHeaders`. -/
def contextWithHeaders : Context := { context0 [] with request := registerWithHeaders }

/-- The callback of `TestObserver`: it reports completion. -/
def observerDone : ObserverHandler := fun _ _ => true

/-- The registry of `TestObserver` after the two registrations, made at time 0
with a lifetime of 6 seconds each. -/
def observerTwoKeys : Observer :=
  (NewObserver.Register 0 "1" 6000 observerDone).Register 0 "2" 6000 observerDone

/-- The largest slice length the Go runtime allocates on linux/amd64. -/
def maxAlloc64 : Nat := 2 ^ 48

/-- A REGISTER request whose method is written in lower case with a dotless i. -/
def registerDotlessI : Request := { register0 with method := "reg\u0131ster" }

/-! ## Properties -/

/-! ### Handler chain: `Abort` short-circuits the chain (C1) -/

theorem toInt8_of_range (x : Int) (h1 : -128 ≤ x) (h2 : x ≤ 127) : toInt8 x = x := by
  unfold toInt8; omega

theorem toInt8_range (x : Int) : -128 ≤ toInt8 x ∧ toInt8 x ≤ 127 := by
  unfold toInt8; omega

theorem toInt8_succ_max : toInt8 (127 + 1) = -128 := by decide

theorem abortIndex_eq : abortIndex = 63 := by decide

theorem atLoop_incr (hs : HandlersChain) (i : Nat) (e : Exec) (h : BetweenCalls hs i e) :
    AtLoop hs i e.incr := by
  obtain ⟨h1, h2, h3⟩ := h
  refine ⟨h1, h2, fun hr => ?_⟩
  obtain ⟨a, b, c⟩ := h3 hr
  have hr8 := toInt8_range (e.ctx.index + 1)
  refine ⟨hr8.1, hr8.2, ?_⟩
  show toInt8 (e.ctx.index + 1) ≤ i ∨ (hs.length : Int) ≤ toInt8 (e.ctx.index + 1)
  by_cases hmax : e.ctx.index = 127
  · left; rw [hmax, toInt8_succ_max]; omega
  · rw [toInt8_of_range _ (by omega) (by omega)]; omega

theorem betweenCalls_of_stopped (hs : HandlersChain) (i : Nat) (e : Exec)
    (h1 : e.ctx.handlers = hs) (h2 : ∀ j ∈ e.trace, j ≤ i) (h3 : e.status ≠ .ok) :
    BetweenCalls hs i e :=
  ⟨h1, h2, fun hr => absurd hr h3⟩

theorem call_callsAbort (hs : HandlersChain) (i n : Nat) (hlen : hs.length ≤ 64)
    (hP : ∀ m ≤ n, ∀ ops e, BetweenCalls hs i e → BetweenCalls hs i (call m ops e)) :
    ∀ fn : HandlerFunc, callsAbort fn = true → ∀ m ≤ n, ∀ e : Exec,
      e.ctx.handlers = hs → (∀ j ∈ e.trace, j ≤ i) → BetweenCalls hs i (call m fn e) := by
  intro fn
  induction fn with
  | nil => intro h; simp [callsAbort] at h
  | cons op ops ih =>
    intro hca m hm e he ht
    cases m with
    | zero =>
      rw [call]
      exact betweenCalls_of_stopped _ _ _ he ht (by simp)
    | succ m =>
      by_cases hs' : e.status ≠ .ok
      · cases op <;> rw [call, if_pos hs'] <;>
          exact betweenCalls_of_stopped _ _ _ he ht hs'
      · cases op with
        | abort =>
          rw [call, if_neg hs']
          apply hP m (by omega)
          refine ⟨he, ht, fun _ => ?_⟩
          simp only [Context.Abort, abortIndex_eq]
          omega
        | next => simp [callsAbort] at hca
        | set k v =>
          rw [call, if_neg hs']
          exact ih (by simpa [callsAbort] using hca) m (by omega) _ he ht
        | string st msg =>
          rw [call, if_neg hs']
          exact ih (by simpa [callsAbort] using hca) m (by omega) _ he ht

theorem run_keeps_cursor (hs : HandlersChain) (i : Nat) (fn : HandlerFunc)
    (hlen : hs.length ≤ 64) (hi : hs.get? i = some (some fn)) (hca : callsAbort fn = true) :
    ∀ n : Nat,
      (∀ e, AtLoop hs i e → BetweenCalls hs i (nextLoop n e)) ∧
      (∀ ops e, BetweenCalls hs i e → BetweenCalls hs i (call n ops e)) := by
  intro n
  induction n using Nat.strong_induction_on with
  | _ n ih =>
    cases n with
    | zero =>
      constructor
      · intro e h; rw [nextLoop]
        exact betweenCalls_of_stopped _ _ _ h.1 h.2.1 (by simp)
      · intro ops e h; rw [call]
        exact betweenCalls_of_stopped _ _ _ h.1 h.2.1 (by simp)
    | succ n =>
      have hLoop := (ih n (by omega)).1
      have hCall := (ih n (by omega)).2
      constructor
      · intro e h
        obtain ⟨h1, h2, h3⟩ := h
        rw [nextLoop]
        by_cases hs' : e.status ≠ .ok
        · rw [if_pos hs']; exact betweenCalls_of_stopped _ _ _ h1 h2 hs'
        · rw [if_neg hs']
          have hrun : e.status = .ok := by simpa using hs'
          obtain ⟨a, b, c⟩ := h3 hrun
          have hl8 : toInt8 (e.ctx.handlers.length : Int) = hs.length := by
            rw [h1]; exact toInt8_of_range _ (by omega) (by omega)
          rw [hl8]
          by_cases hlt : e.ctx.index < (hs.length : Int)
          · rw [if_pos hlt]
            by_cases hneg : e.ctx.index < 0
            · rw [if_pos hneg]
              exact betweenCalls_of_stopped _ _ _ h1 h2 (by simp)
            · rw [if_neg hneg]
              have hle : e.ctx.index ≤ i := by omega
              have hnat : (e.ctx.index.toNat : Int) = e.ctx.index := Int.toNat_of_nonneg (by omega)
              rw [h1]
              cases hg : hs.get? e.ctx.index.toNat with
              | none => exact betweenCalls_of_stopped _ _ _ h1 h2 (by simp)
              | some o =>
                cases o with
                | none =>
                  simp only
                  apply hLoop
                  apply atLoop_incr
                  refine ⟨h1, h2, fun _ => ⟨a, b, ?_⟩⟩
                  left
                  have : e.ctx.index.toNat ≠ i := by
                    intro hEq; rw [hEq, hi] at hg; simp at hg
                  omega
                | some g =>
                  simp only
                  apply hLoop
                  apply atLoop_incr
                  have ht' : ∀ j ∈ e.trace ++ [e.ctx.index.toNat], j ≤ i := by
                    intro j hj
                    rcases List.mem_append.1 hj with hj | hj
                    · exact h2 j hj
                    · simp at hj; omega
                  by_cases hEq : e.ctx.index.toNat = i
                  · have hg' : g = fn := by
                      rw [hEq, hi] at hg; simpa using hg.symm
                    rw [hg']
                    exact call_callsAbort hs i n hlen
                      (fun m hm => (ih m (by omega)).2) fn hca n le_rfl _ h1 ht'
                  · apply hCall
                    refine ⟨h1, ht', fun _ => ⟨a, b, ?_⟩⟩
                    left; show e.ctx.index < i; omega
          · rw [if_neg hlt]
            refine ⟨h1, h2, fun _ => ⟨a, b, ?_⟩⟩
            right; omega
      · intro ops e h
        obtain ⟨h1, h2, h3⟩ := h
        cases ops with
        | nil => rw [call]; exact ⟨h1, h2, h3⟩
        | cons op ops =>
          by_cases hs' : e.status ≠ .ok
          · cases op <;> rw [call, if_pos hs'] <;>
              exact betweenCalls_of_stopped _ _ _ h1 h2 hs'
          · have hrun : e.status = .ok := by simpa using hs'
            obtain ⟨a, b, c⟩ := h3 hrun
            cases op with
            | abort =>
              rw [call, if_neg hs']
              apply hCall
              refine ⟨h1, h2, fun _ => ?_⟩
              simp only [Context.Abort, abortIndex_eq]
              omega
            | next =>
              rw [call, if_neg hs']
              apply hCall
              apply hLoop
              exact atLoop_incr _ _ _ ⟨h1, h2, h3⟩
            | set k v =>
              rw [call, if_neg hs']
              apply hCall
              exact ⟨h1, h2, h3⟩
            | string st msg =>
              rw [call, if_neg hs']
              apply hCall
              exact ⟨h1, h2, h3⟩

/-- C1 (amended): in a chain of at most 64 handlers, run by `Next` on a fresh
Context (cursor -1), if the handler at position `i` calls `Abort` without having
called `Next` before it, no handler at a position greater than `i` is entered,
however far the run gets. -/
theorem Next_abort_short_circuit (fuel : Nat) (c : Context) (i : Nat) (fn : HandlerFunc)
    (hfresh : c.index = -1) (hlen : c.handlers.length ≤ 64)
    (hi : c.handlers.get? i = some (some fn)) (hca : callsAbort fn = true) :
    ∀ j ∈ (Next fuel (Exec.start c)).trace, j ≤ i := by
  have h := (run_keeps_cursor c.handlers i fn hlen hi hca fuel).1 (Exec.start c).incr
    (atLoop_incr _ _ _ ⟨rfl, by simp [Exec.start], fun _ => by
      simp only [Exec.start, hfresh]; omega⟩)
  exact h.2.1


/-- Witness for `Next_abort_short_circuit`: a chain of three handlers whose
second one calls `Abort`. -/
theorem Next_abort_short_circuit_witness :
    (context0 [some [], some [Op.abort], some []]).index = -1 ∧
      callsAbort [Op.abort] = true ∧
      ∀ j ∈ (Next 9 (Exec.start (context0 [some [], some [Op.abort], some []]))).trace, j ≤ 1 :=
  ⟨by decide, by decide,
    Next_abort_short_circuit 9 (context0 [some [], some [Op.abort], some []]) 1 [Op.abort]
      (by decide) (by decide) (by decide) (by decide)⟩

/-- C1 as stated fails: in a chain of 65 handlers whose first handler calls
`Abort` and returns, the cursor is set to 63, the loop steps to 64, which is
still inside the chain, and the handler at position 64 runs. -/
theorem Next_abort_chain65_runs_later_handler :
    chain65.length = 65 ∧ chain65.get? 0 = some (some [Op.abort]) ∧
      callsAbort [Op.abort] = true ∧
      (Next 9 (Exec.start (context0 chain65))).trace = [0, 64] ∧
      (Next 9 (Exec.start (context0 chain65))).status = .ok := by
  decide

/-! ### Dispatch of a request that lacks a mandatory field (C2) -/

theorem mustTX_route (D : Deps) (s : Server) (msg : Request) :
    (s.mustTX D msg).2.route = s.route := by
  simp only [Server.mustTX]
  split
  · rfl
  · split <;> rfl

theorem mustTX_fromAddr (D : Deps) (s : Server) (msg : Request) :
    (s.mustTX D msg).2.fromAddr = s.fromAddr := by
  simp only [Server.mustTX]
  split
  · rfl
  · split <;> rfl

theorem newContext_error_iff (D : Deps) (req : Request) (tx : Transaction) :
    (newContext D req tx).2 ≠ none ↔ missingMandatoryField req = true := by
  obtain ⟨m, f, v, cid, cl, b, src, dst, conn, hdrs⟩ := req
  rcases f with _ | ⟨_ | ⟨_ | u, h⟩⟩ <;> cases v <;>
    simp [newContext, Context.parserRequest, missingMandatoryField]

theorem newContext_fresh (D : Deps) (req : Request) (tx : Transaction) :
    (newContext D req tx).1.index = -1 ∧ (newContext D req tx).1.request = req ∧
      (newContext D req tx).1.tx = tx ∧ (newContext D req tx).1.cache = [] := by
  obtain ⟨m, f, v, cid, cl, b, src, dst, conn, hdrs⟩ := req
  rcases f with _ | ⟨_ | ⟨_ | u, h⟩⟩ <;> cases v <;>
    simp [newContext, Context.parserRequest]

theorem newContext_error_unset (D : Deps) (req : Request) (tx : Transaction)
    (h : (newContext D req tx).2 ≠ none) :
    (newContext D req tx).1.source = none ∧ (newContext D req tx).1.toAddr = none ∧
      (newContext D req tx).1.port = "" := by
  revert h
  obtain ⟨m, f, v, cid, cl, b, src, dst, conn, hdrs⟩ := req
  rcases f with _ | ⟨_ | ⟨_ | u, h⟩⟩ <;> cases v <;>
    simp [newContext, Context.parserRequest]

/-- C2 (amended): for a request with a registered handler chain that lacks a
mandatory field, `handlerRequest` logs the error of `parserRequest`, sends no
response itself, and still starts the chain (`go ctx.Next()`) on a fresh
Context for that request: cursor -1, the registered handlers, and the fields
that are parsed last (Source, To, Port) left unset. -/
theorem handlerRequest_parse_error_still_runs_chain (D : Deps) (s : Server) (msg : Request)
    (key : String) (hs : HandlersChain)
    (hkey : dispatchKey D msg = .ok key)
    (hroute : s.route.lookup (toUpper D.unicodeToUpper key) = some hs)
    (hmiss : missingMandatoryField msg = true) :
    ∃ ctx err,
      (s.handlerRequest D msg).spawned = some (.next ctx) ∧
      (s.handlerRequest D msg).logs = [.parserRequest err] ∧
      ctx.request = msg ∧ ctx.tx = (s.mustTX D msg).1 ∧
      ctx.handlers = hs ∧ ctx.index = -1 ∧
      ctx.source = none ∧ ctx.toAddr = none ∧ ctx.port = "" := by
  have hne := (newContext_error_iff D msg (s.mustTX D msg).1).2 hmiss
  have hfresh := newContext_fresh D msg (s.mustTX D msg).1
  have hunset := newContext_error_unset D msg (s.mustTX D msg).1 hne
  have hr : (s.mustTX D msg).2.route.lookup (toUpper D.unicodeToUpper key) = some hs := by
    rw [mustTX_route]; exact hroute
  cases he : (newContext D msg (s.mustTX D msg).1).2 with
  | none => exact absurd he hne
  | some err =>
    refine ⟨{ (newContext D msg (s.mustTX D msg).1).1 with
                handlers := hs, fromAddr := (s.mustTX D msg).2.fromAddr }, err, ?_, ?_,
      hfresh.2.1, hfresh.2.2.1, rfl, hfresh.1, hunset.1, hunset.2.1, hunset.2.2⟩
    · simp only [Server.handlerRequest, hkey, hr, he]
    · simp only [Server.handlerRequest, hkey, hr, he]

/-- Witness for `handlerRequest_parse_error_still_runs_chain`: a REGISTER
request without a From header, dispatched by `server0`. -/
theorem handlerRequest_parse_error_still_runs_chain_witness :
    ∃ ctx err,
      (server0.handlerRequest deps0 registerNoFrom).spawned = some (.next ctx) ∧
      (server0.handlerRequest deps0 registerNoFrom).logs = [.parserRequest err] ∧
      ctx.request = registerNoFrom ∧ ctx.tx = (server0.mustTX deps0 registerNoFrom).1 ∧
      ctx.handlers = [some [Op.string 200 "OK"]] ∧ ctx.index = -1 ∧
      ctx.source = none ∧ ctx.toAddr = none ∧ ctx.port = "" :=
  handlerRequest_parse_error_still_runs_chain deps0 server0 registerNoFrom "REGISTER"
    [some [Op.string 200 "OK"]] rfl (by decide) (by decide)

/-- C2 as stated fails: a REGISTER request without a From header has a
registered chain and lacks a mandatory field, yet `handlerRequest` starts the
chain; its handler at position 0 runs and sends a 200 response. -/
theorem handlerRequest_no_from_runs_handler :
    server0.route.lookup (toUpper deps0.unicodeToUpper registerNoFrom.method)
        = some [some [Op.string 200 "OK"]] ∧
      missingMandatoryField registerNoFrom = true ∧
      (server0.handlerRequest deps0 registerNoFrom).logs = [.parserRequest .reqFromIsNil] ∧
      (server0.handlerRequest deps0 registerNoFrom).spawned ≠ none ∧
      ((server0.handlerRequest deps0 registerNoFrom).spawned.map (Goroutine.run 9)).map (·.executed)
        = some [0] ∧
      ((server0.handlerRequest deps0 registerNoFrom).spawned.map (Goroutine.run 9)).map
          (fun r => r.sent.map (·.status)) = some [200] := by
  decide

/-! ### Typed getters of the Context cache (C3) -/

theorem Set_then_lookup (c : Context) (k : String) (v : AnyVal) :
    (c.Set k v).cache.lookup k = some v := by
  simp [Context.Set, List.lookup]

/-- C3 (amended): `GetMustString` and `GetMustInt` return the zero value when the
key is absent and the stored value when it has the right type; when the key
holds a value of another type the type assertion panics. -/
theorem getMust_zero_value_or_panic (c : Context) (k : String) :
    (c.cache.lookup k = none → c.GetMustString k = .ok "" ∧ c.GetMustInt k = .ok 0) ∧
    (∀ s, c.cache.lookup k = some (.str s) → c.GetMustString k = .ok s) ∧
    (∀ n, c.cache.lookup k = some (.int n) → c.GetMustInt k = .ok n) ∧
    (∀ v, c.cache.lookup k = some v → (∀ s, v ≠ .str s) →
      c.GetMustString k = .error (.interfaceConversion v)) ∧
    (∀ v, c.cache.lookup k = some v → (∀ n, v ≠ .int n) →
      c.GetMustInt k = .error (.interfaceConversion v)) := by
  refine ⟨?_, ?_, ?_, ?_, ?_⟩
  · intro h; simp [Context.GetMustString, Context.GetMustInt, h]
  · intro s h; simp [Context.GetMustString, h]
  · intro n h; simp [Context.GetMustInt, h]
  · intro v h hv
    cases v with
    | str s => exact absurd rfl (hv s)
    | nil => simp [Context.GetMustString, h]
    | int n => simp [Context.GetMustString, h]
    | other t => simp [Context.GetMustString, h]
  · intro v h hv
    cases v with
    | int n => exact absurd rfl (hv n)
    | nil => simp [Context.GetMustInt, h]
    | str s => simp [Context.GetMustInt, h]
    | other t => simp [Context.GetMustInt, h]

/-- Witness for `getMust_zero_value_or_panic`: a fresh context, then the same
context after `Set("name", "cam")` and after `Set("n", 5)`. -/
theorem getMust_zero_value_or_panic_witness :
    ((context0 []).GetMustString "name" = .ok "" ∧ (context0 []).GetMustInt "name" = .ok 0) ∧
    ((context0 []).Set "name" (.str "cam")).GetMustString "name" = .ok "cam" ∧
    ((context0 []).Set "n" (.int 5)).GetMustInt "n" = .ok 5 ∧
    ((context0 []).Set "n" (.int 5)).GetMustString "n" = .error (.interfaceConversion (.int 5)) ∧
    ((context0 []).Set "name" (.str "cam")).GetMustInt "name"
      = .error (.interfaceConversion (.str "cam")) :=
  ⟨(getMust_zero_value_or_panic (context0 []) "name").1 (by decide),
   (getMust_zero_value_or_panic ((context0 []).Set "name" (.str "cam")) "name").2.1 "cam"
     (by decide),
   (getMust_zero_value_or_panic ((context0 []).Set "n" (.int 5)) "n").2.2.1 5 (by decide),
   (getMust_zero_value_or_panic ((context0 []).Set "n" (.int 5)) "n").2.2.2.1 (.int 5)
     (by decide) (by intro s h; cases h),
   (getMust_zero_value_or_panic ((context0 []).Set "name" (.str "cam")) "name").2.2.2.2
     (.str "cam") (by decide) (by intro n h; cases h)⟩

/-- C3 as stated fails: after `Set("n", 5)` the call `GetMustString("n")` does
not return the empty string, it panics on the type assertion; likewise
`GetMustInt` on a key holding a string. -/
theorem GetMustString_type_mismatch_panics :
    ((context0 []).Set "n" (.int 5)).GetMustString "n" ≠ .ok "" ∧
    ((context0 []).Set "n" (.int 5)).GetMustString "n"
      = .error (.interfaceConversion (.int 5)) ∧
    ((context0 []).Set "name" (.str "cam")).GetMustInt "name" ≠ .ok 0 ∧
    ((context0 []).Set "name" (.str "cam")).GetMustInt "name"
      = .error (.interfaceConversion (.str "cam")) := by
  refine ⟨?_, rfl, ?_, rfl⟩
  · intro h; cases h
  · intro h; cases h

/-! ### Requests for a method without a route (C4) -/

theorem mustTX_registered (D : Deps) (s : Server) (msg : Request) :
    (s.mustTX D msg).2.getTX (D.getTXKey (.request msg)) = some (s.mustTX D msg).1 := by
  simp only [Server.mustTX]
  split
  · assumption
  · split <;> simp [Transacionts.newTX, Transacionts.getTX, Server.getTX, List.lookup]

/-- C4: a request whose method is neither MESSAGE nor NOTIFY and whose upper-cased
method has no route makes `handlerRequest` start `handlerMethodNotAllowed` and
nothing else: exactly one response, 405 "Method Not Allowed", is sent for that
request through the transaction registered under the request's own key; no
Context is built and no handler is entered. -/
theorem handlerRequest_method_not_allowed (D : Deps) (s : Server) (msg : Request)
    (hm : msg.method ≠ MethodMessage) (hn : msg.method ≠ MethodNotify)
    (hroute : s.route.lookup (toUpper D.unicodeToUpper msg.method) = none) :
    (s.handlerRequest D msg).spawned
        = some (.methodNotAllowed msg (s.mustTX D msg).1) ∧
      (∀ ctx, (s.handlerRequest D msg).spawned ≠ some (.next ctx)) ∧
      (s.handlerRequest D msg).logs = [.notFoundHandlerFunc] ∧
      (s.handlerRequest D msg).srv.getTX (D.getTXKey (.request msg))
        = some (s.mustTX D msg).1 ∧
      ∀ fuel, (s.handlerRequest D msg).spawned.map (Goroutine.run fuel)
        = some { executed := [],
                 sent := [{ tx := (s.mustTX D msg).1, req := msg, status := 405,
                            reason := "Method Not Allowed", body := [] }] } := by
  have hk : dispatchKey D msg = .ok msg.method := by
    simp [dispatchKey, hm, hn]
  have hr : (s.mustTX D msg).2.route.lookup (toUpper D.unicodeToUpper msg.method) = none := by
    rw [mustTX_route]; exact hroute
  have hsp : (s.handlerRequest D msg).spawned
      = some (.methodNotAllowed msg (s.mustTX D msg).1) := by
    simp only [Server.handlerRequest, hk, hr]
  have hsrv : (s.handlerRequest D msg).srv = (s.mustTX D msg).2 := by
    simp only [Server.handlerRequest, hk, hr]
  refine ⟨hsp, ?_, ?_, ?_, ?_⟩
  · intro ctx h; rw [hsp] at h; cases h
  · simp only [Server.handlerRequest, hk, hr]
  · rw [hsrv]; exact mustTX_registered D s msg
  · intro fuel; rw [hsp]; rfl

/-- Witness for `handlerRequest_method_not_allowed`: an INVITE request, for which
`server0` has no route. -/
theorem handlerRequest_method_not_allowed_witness :
    (server0.handlerRequest deps0 invite0).spawned
        = some (.methodNotAllowed invite0 (server0.mustTX deps0 invite0).1) ∧
      (∀ ctx, (server0.handlerRequest deps0 invite0).spawned ≠ some (.next ctx)) ∧
      (server0.handlerRequest deps0 invite0).logs = [.notFoundHandlerFunc] ∧
      (server0.handlerRequest deps0 invite0).srv.getTX (deps0.getTXKey (.request invite0))
        = some (server0.mustTX deps0 invite0).1 ∧
      ∀ fuel, (server0.handlerRequest deps0 invite0).spawned.map (Goroutine.run fuel)
        = some { executed := [],
                 sent := [{ tx := (server0.mustTX deps0 invite0).1, req := invite0, status := 405,
                            reason := "Method Not Allowed", body := [] }] } :=
  handlerRequest_method_not_allowed deps0 server0 invite0 (by decide) (by decide) (by decide)

/-- A method with a letter outside ASCII goes through the case table: written
with a dotless i, `register` is upper-cased to REGISTER, the route is found and
the handler runs; no 405 is sent. -/
theorem handlerRequest_dotless_i_finds_route :
    toUpper deps0.unicodeToUpper registerDotlessI.method = "REGISTER" ∧
      ((server0.handlerRequest deps0 registerDotlessI).spawned.map (Goroutine.run 9)).map
          (fun r => (r.executed, r.sent.map (·.status))) = some ([0], [200]) := by
  decide

/-! ### Outbound requests: stamping the top Via hop (C5, C6) -/

theorem Params_Has_Add_self (p : Params) (key : String) (val : Option String) :
    (p.Add key val).Has key = true := by
  induction p with
  | nil => simp [Params.Add, Params.Has, List.lookup]
  | cons kv rest ih =>
    obtain ⟨k, v⟩ := kv
    by_cases h : k = key
    · simp [Params.Add, Params.Has, List.lookup, h]
    · have hb : (key == k) = false := by simpa using fun h' => h h'.symm
      simp only [Params.Has, Params.Add, if_neg h, List.lookup, hb] at ih ⊢
      exact ih

theorem Params_lookup_Add_other (p : Params) (key other : String) (val : Option String)
    (h : other ≠ key) : (p.Add key val).lookup other = p.lookup other := by
  induction p with
  | nil =>
    have hb : (other == key) = false := by simpa using h
    simp [Params.Add, List.lookup, hb]
  | cons kv rest ih =>
    obtain ⟨k, v⟩ := kv
    by_cases hk : k = key
    · have hb : (other == k) = false := by rw [hk]; simpa using h
      simp only [Params.Add, if_pos hk, List.lookup, hb]
    · simp only [Params.Add, if_neg hk, List.lookup]
      cases hok : other == k <;> simp [ih]

theorem Request_req (D : Deps) (s : Server) (req : Request) (hop : ViaHop)
    (rest : List ViaHop) (hvia : req.via = hop :: rest) :
    (s.Request D req).req.via =
      { host := s.host, port := s.port,
        params := some
          (if !(match hop.params with
                | none => Params.Add [] "branch" (some D.generateBranch)
                | some p => p).Has "rport"
           then (match hop.params with
                | none => Params.Add [] "branch" (some D.generateBranch)
                | some p => p).Add "rport" none
           else (match hop.params with
                | none => Params.Add [] "branch" (some D.generateBranch)
                | some p => p)) } :: rest := by
  unfold Server.Request
  rw [hvia]

/-- C5 (amended): when the request has a top Via hop, `Server.Request` leaves the
request with that hop stamped: host the server's self IP, port the server's UDP
port, an `rport` parameter (an existing one keeps its value), and the hops below
untouched. A `branch` parameter is added only when the hop had no parameter set
at all (nil); a hop that came with a parameter set carries a branch afterwards
exactly when it carried one before. -/
theorem Request_stamps_top_via (D : Deps) (s : Server) (req : Request) (hop : ViaHop)
    (rest : List ViaHop) (hvia : req.via = hop :: rest) :
    ∃ p : Params,
      (s.Request D req).req.via
        = { host := s.host, port := s.port, params := some p } :: rest ∧
      p.Has "rport" = true ∧
      (∀ q, hop.params = some q → q.Has "rport" = true → p.Get "rport" = q.Get "rport") ∧
      (hop.params = none → p.Get "branch" = some (some D.generateBranch)) ∧
      (∀ q, hop.params = some q → p.Has "branch" = q.Has "branch") := by
  refine ⟨_, Request_req D s req hop rest hvia, ?_, ?_, ?_, ?_⟩
  · split
    · exact Params_Has_Add_self _ _ _
    · rename_i hnot
      cases hh : (match hop.params with
                | none => Params.Add [] "branch" (some D.generateBranch)
                | some p => p).Has "rport" with
      | true => rfl
      | false => rw [hh] at hnot; exact absurd rfl hnot
  · intro q hq hr
    simp [hq, hr]
  · intro hn
    simp [hn, Params.Add, Params.Has, Params.Get, List.lookup]
  · intro q hq
    simp only [hq]
    split
    · simp only [Params.Has]
      rw [Params_lookup_Add_other _ _ _ _ (by decide)]
    · rfl

/-- Witness for `Request_stamps_top_via`: `register0`, whose Via hop carries a
branch, sent by `server0`. -/
theorem Request_stamps_top_via_witness :
    ∃ p : Params,
      (server0.Request deps0 register0).req.via
        = { host := server0.host, port := server0.port, params := some p } :: [] ∧
      p.Has "rport" = true ∧
      (∀ q, (some [("branch", some "b1")] : Option Params) = some q →
        q.Has "rport" = true → p.Get "rport" = q.Get "rport") ∧
      ((some [("branch", some "b1")] : Option Params) = none →
        p.Get "branch" = some (some deps0.generateBranch)) ∧
      (∀ q, (some [("branch", some "b1")] : Option Params) = some q →
        p.Has "branch" = q.Has "branch") :=
  Request_stamps_top_via deps0 server0 register0
    { host := "10.0.0.9", port := some 5060, params := some [("branch", some "b1")] } [] rfl

/-- C5 as stated fails: an outbound request whose top Via hop has an empty
(non-nil) parameter set is accepted, and afterwards the hop carries `rport` but
no `branch` parameter. -/
theorem Request_empty_params_gets_no_branch :
    (server0.Request deps0 outboundEmptyParams).err = none ∧
      (server0.Request deps0 outboundEmptyParams).req.via
        = [{ host := "10.0.0.1", port := some 15060, params := some [("rport", none)] }] ∧
      Params.Has [("rport", none)] "branch" = false := by
  decide

/-- C6: for a request without a Via header `Server.Request` returns a nil
transaction and the missing-Via error, and nothing else happens: the server
(registry included) and the request are as before and nothing is sent. -/
theorem Request_missing_via (D : Deps) (s : Server) (req : Request) (hvia : req.via = []) :
    s.Request D req
      = { tx := none, err := some .missingVia, srv := s, req := req, sent := [] } := by
  unfold Server.Request
  rw [hvia]

/-- Witness for `Request_missing_via`: `outboundNoVia` sent by `server0`. -/
theorem Request_missing_via_witness :
    server0.Request deps0 outboundNoVia
      = { tx := none, err := some .missingVia, srv := server0, req := outboundNoVia,
          sent := [] } :=
  Request_missing_via deps0 server0 outboundNoVia rfl

/-! ### Body of a UDP packet (C8) -/

theorem makeBytes_ok (maxAlloc : Nat) (n : Int) (h0 : 0 ≤ n) (h1 : n ≤ maxAlloc) :
    makeBytes maxAlloc n = .ok (List.replicate n.toNat 0) := by
  unfold makeBytes
  rw [if_neg (by omega)]

theorem makeBytes_panic (maxAlloc : Nat) (n : Int) (h : (maxAlloc : Int) < n) :
    makeBytes maxAlloc n = .error .makesliceLenOutOfRange := by
  unfold makeBytes
  rw [if_pos (Or.inr h)]

/-- What `getBody` does with a declared length above what `make` allocates: it
panics before it reads. -/
theorem getBody_makeslice_panic (maxAlloc : Nat) (p : Packet)
    (h : (maxAlloc : Int) < p.bodylength) :
    p.getBody maxAlloc = .error .makesliceLenOutOfRange := by
  have h1 : ¬ p.bodylength < 1 := by omega
  simp only [Packet.getBody, Packet.bodyLength, if_neg h1, makeBytes_panic _ _ h]

/-- A declared length of 9223372036854775807 with two bytes left: `getBody`
panics in `make`. -/
theorem getBody_max_int_panics :
    Packet.getBody maxAlloc64 ⟨[1, 2], 9223372036854775807⟩
      = .error .makesliceLenOutOfRange :=
  getBody_makeslice_panic maxAlloc64 ⟨[1, 2], 9223372036854775807⟩ (by decide)

/-- C8 (amended): with a declared body length `L` that `make` can allocate
(`L ≤ maxAlloc`) and `r` bytes left unread, `getBody` returns the first `L`
bytes without error when `1 ≤ L ≤ r`, and the `r` bytes there are, without
error, when `0 < r < L`; when nothing is left (`r = 0`) and `1 ≤ L` it returns
the `EOF` error together with a zeroed buffer of `L` bytes. When `L < 1` it
returns the empty body without error. -/
theorem getBody_cases (maxAlloc : Nat) (p : Packet) :
    (p.bodylength < 1 → p.getBody maxAlloc = .ok ([], none)) ∧
    (1 ≤ p.bodylength → p.bodylength ≤ maxAlloc → p.bodylength ≤ p.reader.length →
      p.getBody maxAlloc = .ok (p.reader.take p.bodylength.toNat, none)) ∧
    (0 < p.reader.length → (p.reader.length : Int) < p.bodylength →
      p.bodylength ≤ maxAlloc → p.getBody maxAlloc = .ok (p.reader, none)) ∧
    (p.reader.length = 0 → 1 ≤ p.bodylength → p.bodylength ≤ maxAlloc →
      p.getBody maxAlloc = .ok (List.replicate p.bodylength.toNat 0, some .EOF)) := by
  obtain ⟨reader, L⟩ := p
  refine ⟨?_, ?_, ?_, ?_⟩
  · intro h
    simp only [Packet.getBody, Packet.bodyLength] at h ⊢
    rw [if_pos h]
  · intro h1 hm h2
    simp only [Packet.getBody, Packet.bodyLength] at h1 hm h2 ⊢
    have hle : L.toNat ≤ reader.length := by omega
    rw [if_neg (by omega), makeBytes_ok _ _ (by omega) hm]
    simp only [List.length_replicate]
    rw [if_pos (by omega)]
    simp only [ioReadFull, if_pos hle]
    have hmin : min L.toNat reader.length = L.toNat := Nat.min_eq_left hle
    have hsub : L.toNat - reader.length = 0 := by omega
    simp [hmin, hsub]
  · intro h1 h2 hm
    simp only [Packet.getBody, Packet.bodyLength] at h1 h2 hm ⊢
    have hlt : reader.length < L.toNat := by omega
    rw [if_neg (by omega), makeBytes_ok _ _ (by omega) hm]
    simp only [List.length_replicate]
    rw [if_pos (by omega)]
    simp only [ioReadFull, if_neg (Nat.not_le.2 hlt), if_neg (Nat.pos_iff_ne_zero.1 h1)]
    have hmin : min L.toNat reader.length = reader.length := Nat.min_eq_right (by omega)
    have htake : List.take L.toNat reader = reader := List.take_of_length_le (by omega)
    simp [hmin, htake]
    omega
  · intro h1 h2 hm
    simp only [Packet.getBody, Packet.bodyLength] at h1 h2 hm ⊢
    have hnil : reader = [] := List.length_eq_zero.1 h1
    subst hnil
    rw [if_neg (by omega), makeBytes_ok _ _ (by omega) hm]
    simp only [List.length_replicate]
    rw [if_pos (by omega)]
    have hpos : ¬ L.toNat ≤ 0 := by omega
    simp [ioReadFull, hpos]

/-- Witness for `getBody_cases`: packets declaring 0 and 3 body bytes with two or
more bytes left, one declaring 5 with two left, one declaring 5 with none left. -/
theorem getBody_cases_witness :
    Packet.getBody maxAlloc64 ⟨[1, 2], 0⟩ = .ok ([], none) ∧
    Packet.getBody maxAlloc64 ⟨[1, 2, 3, 4], 3⟩ = .ok ([1, 2, 3], none) ∧
    Packet.getBody maxAlloc64 ⟨[1, 2], 5⟩ = .ok ([1, 2], none) ∧
    Packet.getBody maxAlloc64 ⟨[], 5⟩ = .ok ([0, 0, 0, 0, 0], some .EOF) :=
  ⟨(getBody_cases maxAlloc64 ⟨[1, 2], 0⟩).1 (by decide),
   (getBody_cases maxAlloc64 ⟨[1, 2, 3, 4], 3⟩).2.1 (by decide) (by decide) (by decide),
   (getBody_cases maxAlloc64 ⟨[1, 2], 5⟩).2.2.1 (by decide) (by decide) (by decide),
   (getBody_cases maxAlloc64 ⟨[], 5⟩).2.2.2 (by decide) (by decide) (by decide)⟩

/-- C8 as stated fails: a packet that declares 5 body bytes and has none left
(`r = 0 ≤ L = 5`) makes `getBody` return the `EOF` error, with a zeroed buffer
of 5 bytes instead of the 0 bytes available. -/
theorem getBody_no_bytes_left_is_EOF :
    Packet.getBody maxAlloc64 ⟨[], 5⟩ = .ok ([0, 0, 0, 0, 0], some .EOF) ∧
      Packet.getBody maxAlloc64 ⟨[], 5⟩ ≠ .ok ([], none) := by
  refine ⟨rfl, ?_⟩
  intro h
  cases h

/-! ### Transaction registry: get-or-create (C9) -/

/-- C9: `mustTX` returns the transaction the registry holds under the key of the
message and leaves the server unchanged; when there is none it returns a new
transaction for that key, replying on the shared UDP connection of the server
if the network of the message connection is "udp" and on the connection of the
message otherwise, stored under that key, every other key being as before. -/
theorem mustTX_get_or_create (D : Deps) (s : Server) (msg : Request) :
    (∀ tx, s.getTX (D.getTXKey (.request msg)) = some tx → s.mustTX D msg = (tx, s)) ∧
    (s.getTX (D.getTXKey (.request msg)) = none →
      (s.mustTX D msg).1
        = { key := D.getTXKey (.request msg),
            conn := if msg.conn.network = "udp" then s.udpConn else msg.conn } ∧
      (s.mustTX D msg).2.getTX (D.getTXKey (.request msg)) = some (s.mustTX D msg).1 ∧
      (∀ k, k ≠ D.getTXKey (.request msg) → (s.mustTX D msg).2.getTX k = s.getTX k) ∧
      (s.mustTX D msg).2.udpConn = s.udpConn ∧ (s.mustTX D msg).2.route = s.route) := by
  constructor
  · intro tx h
    simp only [Server.getTX] at h
    simp only [Server.mustTX, h]
  · intro h
    simp only [Server.getTX] at h
    refine ⟨?_, mustTX_registered D s msg, ?_, ?_, mustTX_route D s msg⟩
    · simp only [Server.mustTX, h]
      split <;> rfl
    · intro k hk
      have hb : (k == D.getTXKey (.request msg)) = false := by simpa using hk
      simp only [Server.mustTX, h]
      split <;> simp [Transacionts.newTX, Transacionts.getTX, Server.getTX, List.lookup, hb]
    · simp only [Server.mustTX, h]
      split <;> rfl

/-- Witness for `mustTX_get_or_create`: `register0` on a server that holds its
transaction, and on an empty server over UDP; `invite0` over TCP. -/
theorem mustTX_get_or_create_witness :
    server1.mustTX deps0 register0 = ({ key := "b1c1", conn := udp0 }, server1) ∧
    (server0.mustTX deps0 register0).1 = { key := "b1c1", conn := server0.udpConn } ∧
    (server0.mustTX deps0 invite0).1 = { key := "b1c1", conn := tcp1 } :=
  ⟨(mustTX_get_or_create deps0 server1 register0).1 _ (by decide),
   ((mustTX_get_or_create deps0 server0 register0).2 (by decide)).1,
   ((mustTX_get_or_create deps0 server0 invite0).2 (by decide)).1⟩

/-! ### Responses and the transaction registry (C10) -/

/-- C10: for a response whose key is not in the registry `handlerResponse`
delivers it to no transaction and leaves the server, registry included, as it
was; when the key is present the response is delivered once, to the transaction
stored under that key, and the server is again unchanged. -/
theorem handlerResponse_delivery (D : Deps) (s : Server) (msg : Response) :
    (s.getTX (D.getTXKey (.response msg)) = none →
      s.handlerResponse D msg = { srv := s, received := [] }) ∧
    (∀ tx, s.getTX (D.getTXKey (.response msg)) = some tx →
      s.handlerResponse D msg = { srv := s, received := [(tx, msg)] }) := by
  constructor
  · intro h; simp only [Server.handlerResponse, h]
  · intro tx h; simp only [Server.handlerResponse, h]

/-- Witness for `handlerResponse_delivery`: `response0` on a server without
transactions and on a server holding the transaction of `register0`. -/
theorem handlerResponse_delivery_witness :
    server0.handlerResponse deps0 response0 = { srv := server0, received := [] } ∧
    server1.handlerResponse deps0 response0
      = { srv := server1, received := [({ key := "b1c1", conn := udp0 }, response0)] } :=
  ⟨(handlerResponse_delivery deps0 server0 response0).1 (by decide),
   (handlerResponse_delivery deps0 server1 response0).2 _ (by decide)⟩

/-! ### TCP framing (C7) -/

/-- A Content-Length above what `make` allocates: the loop panics at the empty
line and forwards nothing. -/
theorem ProcessTcpConn_huge_length_panics :
    ProcessTcpConn maxAlloc64
        (asciiBytes "REGISTER sip:10.0.0.1 SIP/2.0\r\nContent-Length: 9223372036854775807\r\n\r\nab")
      = { packets := [], panic := some .makesliceLenOutOfRange } := by
  decide

/-! ### Handler chain: every handler runs once, in order (C11) -/

theorem call_plain (fn : HandlerFunc) :
    ∀ (fuel : Nat) (e : Exec), fn.length < fuel → e.status = .ok →
      Op.abort ∉ fn → Op.next ∉ fn →
      (call fuel fn e).trace = e.trace ∧ (call fuel fn e).status = .ok ∧
        (call fuel fn e).ctx.index = e.ctx.index ∧
        (call fuel fn e).ctx.handlers = e.ctx.handlers := by
  induction fn with
  | nil =>
    intro fuel e hf hs _ _
    obtain ⟨k, rfl⟩ : ∃ k, fuel = k + 1 := ⟨fuel - 1, by simp at hf; omega⟩
    rw [call]
    exact ⟨rfl, hs, rfl, rfl⟩
  | cons op ops ih =>
    intro fuel e hf hs ha hn
    obtain ⟨k, rfl⟩ : ∃ k, fuel = k + 1 := ⟨fuel - 1, by omega⟩
    have hk : ops.length < k := by simp only [List.length_cons] at hf; omega
    have ha' : Op.abort ∉ ops := fun h => ha (List.mem_cons_of_mem _ h)
    have hn' : Op.next ∉ ops := fun h => hn (List.mem_cons_of_mem _ h)
    have hok : ¬ e.status ≠ .ok := by simp [hs]
    cases op with
    | abort => exact absurd (List.mem_cons_self _ _) ha
    | next => exact absurd (List.mem_cons_self _ _) hn
    | set key v =>
      rw [call, if_neg hok]
      exact ih k _ hk hs ha' hn'
    | string st msg =>
      rw [call, if_neg hok]
      exact ih k _ hk hs ha' hn'

theorem get?_append_length (pre suf : HandlersChain) (x : Option HandlerFunc) :
    (pre ++ x :: suf).get? pre.length = some x := by
  induction pre with
  | nil => rfl
  | cons a t ih => simpa using ih

theorem nextLoop_plain (suf : HandlersChain) :
    ∀ (pre : HandlersChain) (fuel : Nat) (e : Exec),
      e.ctx.handlers = pre ++ suf → (pre ++ suf).length ≤ 127 →
      e.ctx.index = pre.length → e.status = .ok →
      (∀ fn, some fn ∈ suf → Op.abort ∉ fn ∧ Op.next ∉ fn) →
      suf.length + opsBound suf + 1 ≤ fuel →
      (nextLoop fuel e).trace = e.trace ++ nonNilPositions pre.length suf ∧
        (nextLoop fuel e).status = .ok := by
  induction suf with
  | nil =>
    intro pre fuel e hh hlen hi hs _ hf
    obtain ⟨k, rfl⟩ : ∃ k, fuel = k + 1 := ⟨fuel - 1, by omega⟩
    have hok : ¬ e.status ≠ .ok := by simp [hs]
    rw [nextLoop, if_neg hok, hh, toInt8_of_range _ (by omega) (by omega), hi]
    simp [nonNilPositions, hs]
  | cons x t ih =>
    intro pre fuel e hh hlen hi hs hplain hf
    obtain ⟨k, rfl⟩ : ∃ k, fuel = k + 1 := ⟨fuel - 1, by omega⟩
    have hok : ¬ e.status ≠ .ok := by simp [hs]
    have hlen' : pre.length + (t.length + 1) ≤ 127 := by
      simpa [List.length_append] using hlen
    have hlt : e.ctx.index < ((pre ++ x :: t).length : Int) := by
      rw [hi]; simp only [List.length_append, List.length_cons]; omega
    have hnn : ¬ e.ctx.index < 0 := by rw [hi]; omega
    have hnat : e.ctx.index.toNat = pre.length := by rw [hi]; simp
    have hh' : e.ctx.handlers = (pre ++ [x]) ++ t := by simp [hh]
    have hlen2 : ((pre ++ [x]) ++ t).length ≤ 127 := by
      simp only [List.length_append, List.length_cons, List.length_nil]; omega
    have hincr : ∀ e' : Exec, e'.ctx.index = e.ctx.index →
        e'.incr.ctx.index = ((pre ++ [x]).length : Int) := by
      intro e' h'
      show toInt8 (e'.ctx.index + 1) = _
      rw [h', hi, toInt8_of_range _ (by omega) (by omega)]
      simp
    rw [nextLoop, if_neg hok, hh, toInt8_of_range _ (by omega) (by omega), if_pos hlt,
      if_neg hnn, hnat, get?_append_length]
    cases x with
    | none =>
      simp only
      have hb : t.length + opsBound t + 1 ≤ k := by
        simp only [List.length_cons, opsBound] at hf; omega
      have := ih (pre ++ [none]) k e.incr hh' hlen2 (hincr e rfl) hs
        (fun fn hfn => hplain fn (List.mem_cons_of_mem _ hfn)) hb
      simpa [nonNilPositions] using this
    | some fn =>
      simp only
      have hfnb : fn.length < k := by
        simp only [List.length_cons, opsBound] at hf
        have := Nat.le_max_left fn.length (opsBound t)
        omega
      have hb : t.length + opsBound t + 1 ≤ k := by
        simp only [List.length_cons, opsBound] at hf
        have := Nat.le_max_right fn.length (opsBound t)
        omega
      obtain ⟨ha, hn⟩ := hplain fn (List.mem_cons_self _ _)
      obtain ⟨c1, c2, c3, c4⟩ :=
        call_plain fn k { e with trace := e.trace ++ [pre.length] } hfnb hs ha hn
      have := ih (pre ++ [some fn]) k
        (call k fn { e with trace := e.trace ++ [pre.length] }).incr
        (by show (call k fn _).ctx.handlers = _; rw [c4]; exact hh')
        hlen2 (hincr _ c3) c2
        (fun g hg => hplain g (List.mem_cons_of_mem _ hg)) hb
      rw [this.1, this.2]
      refine ⟨?_, rfl⟩
      show (call k fn _).trace ++ _ = _
      rw [c1]
      simp [nonNilPositions]

theorem nonNilPositions_mem (hs : HandlersChain) :
    ∀ k i : Nat, i ∈ nonNilPositions k hs ↔
      k ≤ i ∧ ∃ fn, hs.get? (i - k) = some (some fn) := by
  induction hs with
  | nil => intro k i; simp [nonNilPositions]
  | cons x t ih =>
    intro k i
    have hstep : ∀ fn, k < i →
        ((x :: t).get? (i - k) = some (some fn) ↔ t.get? (i - (k + 1)) = some (some fn)) := by
      intro fn hki
      have : i - k = (i - (k + 1)) + 1 := by omega
      rw [this]; simp
    cases x with
    | none =>
      rw [nonNilPositions, ih]
      constructor
      · rintro ⟨h1, fn, h2⟩
        exact ⟨by omega, fn, (hstep fn (by omega)).2 h2⟩
      · rintro ⟨h1, fn, h2⟩
        have hki : k < i := by
          rcases Nat.lt_or_ge k i with h | h
          · exact h
          · have : i - k = 0 := by omega
            rw [this] at h2; simp at h2
        exact ⟨by omega, fn, (hstep fn hki).1 h2⟩
    | some g =>
      rw [nonNilPositions, List.mem_cons, ih]
      constructor
      · rintro (h | ⟨h1, fn, h2⟩)
        · subst h; exact ⟨le_rfl, g, by simp⟩
        · exact ⟨by omega, fn, (hstep fn (by omega)).2 h2⟩
      · rintro ⟨h1, fn, h2⟩
        rcases Nat.lt_or_ge k i with h | h
        · exact Or.inr ⟨by omega, fn, (hstep fn h).1 h2⟩
        · exact Or.inl (by omega)

theorem nonNilPositions_ascending (hs : HandlersChain) :
    ∀ k : Nat, (nonNilPositions k hs).Pairwise (· < ·) := by
  induction hs with
  | nil => intro k; simp [nonNilPositions]
  | cons x t ih =>
    intro k
    cases x with
    | none => rw [nonNilPositions]; exact ih (k + 1)
    | some g =>
      rw [nonNilPositions, List.pairwise_cons]
      refine ⟨fun j hj => ?_, ih (k + 1)⟩
      have := ((nonNilPositions_mem t (k + 1) j).1 hj).1
      omega

/-- C11 (amended): for a chain of at most 127 handlers in which no handler calls
`Abort` or `Next`, `Next` started on a fresh Context (cursor -1) with a budget of
at least `chainBudget` ends normally, having entered the handlers in strictly
ascending position order, each position at most once, and the positions entered
are exactly those of the non-nil handlers of the chain. -/
theorem Next_runs_every_handler_in_order (c : Context) (fuel : Nat)
    (hfresh : c.index = -1) (hlen : c.handlers.length ≤ 127)
    (hplain : ∀ fn, some fn ∈ c.handlers → Op.abort ∉ fn ∧ Op.next ∉ fn)
    (hfuel : chainBudget c.handlers ≤ fuel) :
    (Next fuel (Exec.start c)).status = .ok ∧
      (Next fuel (Exec.start c)).trace.Pairwise (· < ·) ∧
      ∀ i, i ∈ (Next fuel (Exec.start c)).trace ↔ ∃ fn, c.handlers.get? i = some (some fn) := by
  have h := nextLoop_plain c.handlers [] fuel (Exec.start c).incr rfl hlen
    (by show toInt8 (c.index + 1) = _; rw [hfresh]; decide) rfl hplain
    (by unfold chainBudget at hfuel; omega)
  have ht : (Next fuel (Exec.start c)).trace = nonNilPositions 0 c.handlers := by
    have := h.1
    simpa [Next, Exec.start, Exec.incr] using this
  refine ⟨h.2, ?_, ?_⟩
  · rw [ht]; exact nonNilPositions_ascending _ _
  · intro i
    rw [ht, nonNilPositions_mem]
    simp

/-- Witness for `Next_runs_every_handler_in_order`: a chain of four entries, one
of them nil, whose handlers set a value or send a response. -/
theorem Next_runs_every_handler_in_order_witness :
    (context0 [some [Op.set "a" (.int 1)], none, some [], some [Op.string 200 "OK"]]).index
        = -1 ∧
      (Next 9 (Exec.start
          (context0 [some [Op.set "a" (.int 1)], none, some [], some [Op.string 200 "OK"]]))).trace
        = [0, 2, 3] ∧
      (Next 9 (Exec.start
          (context0 [some [Op.set "a" (.int 1)], none, some [], some [Op.string 200 "OK"]]))).status
        = .ok ∧
      (Next 9 (Exec.start
          (context0 [some [Op.set "a" (.int 1)], none, some [], some [Op.string 200 "OK"]]))).trace.Pairwise
        (· < ·) :=
  ⟨by decide, by decide,
    (Next_runs_every_handler_in_order
      (context0 [some [Op.set "a" (.int 1)], none, some [], some [Op.string 200 "OK"]]) 9
      (by decide) (by decide)
      (by intro fn h; simp [context0] at h; rcases h with rfl | rfl | rfl <;> decide)
      (by decide)).1,
    (Next_runs_every_handler_in_order
      (context0 [some [Op.set "a" (.int 1)], none, some [], some [Op.string 200 "OK"]]) 9
      (by decide) (by decide)
      (by intro fn h; simp [context0] at h; rcases h with rfl | rfl | rfl <;> decide)
      (by decide)).2.1⟩

set_option maxRecDepth 8000 in
/-- C11 as stated fails: in a chain of 128 handlers that call neither `Abort` nor
`Next`, the length converted to `int8` is -128, the loop condition is false at
once, and `Next` ends without entering any handler. -/
theorem Next_chain128_runs_no_handler :
    chain128.length = 128 ∧ chain128.get? 0 = some (some []) ∧
      toInt8 chain128.length = -128 ∧
      (Next 9 (Exec.start (context0 chain128))).trace = [] ∧
      (Next 9 (Exec.start (context0 chain128))).status = .ok := by
  decide

/-! ### Line reader of a packet (C13) -/

theorem readBytes_terminated (s rest : List Byte) (hs : 10 ∉ s) :
    readBytes 10 (s ++ 10 :: rest) = some (s ++ [10], rest) := by
  induction s with
  | nil => simp [readBytes]
  | cons b t ih =>
    have hb : b ≠ 10 := fun h => hs (by simp [h])
    have ht : 10 ∉ t := fun h => hs (List.mem_cons_of_mem _ h)
    simp only [List.cons_append]
    rw [readBytes, if_neg hb, ih ht]

theorem readBytes_none_iff (input : List Byte) : readBytes 10 input = none ↔ 10 ∉ input := by
  induction input with
  | nil => simp [readBytes]
  | cons b t ih =>
    by_cases hb : b = 10
    · simp [readBytes, hb]
    · rw [readBytes, if_neg hb]
      have hne : ¬ (10 = b) := fun h => hb h.symm
      cases hr : readBytes 10 t with
      | none => simp [hne, ih.1 hr]
      | some p =>
        have : 10 ∈ t := by
          by_contra hcon
          rw [ih.2 hcon] at hr
          cases hr
        simp [this]

theorem stringsTrimSuffix_append (s suffix : List Byte) :
    stringsTrimSuffix (s ++ suffix) suffix = s := by
  have h : suffix.isSuffixOf (s ++ suffix) = true := by
    rw [List.isSuffixOf_iff_suffix]; exact List.suffix_append _ _
  simp [stringsTrimSuffix, h]

theorem stringsTrimSuffix_of_not_suffix (s suffix : List Byte) (h : ¬ suffix <:+ s) :
    stringsTrimSuffix s suffix = s := by
  have h' : suffix.isSuffixOf s = false := by
    cases hb : suffix.isSuffixOf s with
    | false => rfl
    | true => exact absurd (List.isSuffixOf_iff_suffix.1 hb) h
  simp [stringsTrimSuffix, h']

theorem not_lf_suffix (s : List Byte) (hs : 10 ∉ s) : ¬ [10] <:+ s := by
  rintro ⟨t, ht⟩
  exact hs (by rw [← ht]; simp)

theorem not_crlf_suffix (s : List Byte) (hs : s.getLast? ≠ some 13) :
    ¬ [13, 10] <:+ s ++ [10] := by
  rintro ⟨t, ht⟩
  have h2 : (t ++ [13]) ++ [10] = s ++ [10] := by simpa using ht
  have h3 : t ++ [13] = s := List.append_cancel_right h2
  exact hs (by rw [← h3]; simp)

/-- C13 (amended): for a string `s` without line feed, `nextLine` on `s` followed
by CRLF and `rest` returns exactly `s` and leaves `rest` unread; on `s` followed
by a bare LF it does so when `s` does not end in a carriage return. On any
input, `nextLine` returns an error exactly when the unread input has no line
feed, and then it returns no line. -/
theorem nextLine_strips_line_end (s rest input : List Byte) (bodylength : Int)
    (hs : 10 ∉ s) :
    Packet.nextLine ⟨s ++ [13, 10] ++ rest, bodylength⟩ = ((s, none), ⟨rest, bodylength⟩) ∧
    (s.getLast? ≠ some 13 →
      Packet.nextLine ⟨s ++ [10] ++ rest, bodylength⟩ = ((s, none), ⟨rest, bodylength⟩)) ∧
    ((Packet.nextLine ⟨input, bodylength⟩).1.2 ≠ none ↔ 10 ∉ input) ∧
    (10 ∉ input → (Packet.nextLine ⟨input, bodylength⟩).1.1 = []) := by
  refine ⟨?_, ?_, ?_, ?_⟩
  · have hs' : 10 ∉ s ++ [13] := by
      intro h
      rcases List.mem_append.1 h with h | h
      · exact hs h
      · simp at h
    have hr : readBytes 10 (s ++ [13, 10] ++ rest) = some ((s ++ [13]) ++ [10], rest) := by
      have := readBytes_terminated (s ++ [13]) rest hs'
      simpa using this
    simp only [Packet.nextLine, hr]
    have e1 : (s ++ [13]) ++ [10] = s ++ [13, 10] := by simp
    rw [e1, stringsTrimSuffix_append, stringsTrimSuffix_of_not_suffix _ _ (not_lf_suffix s hs)]
  · intro hcr
    have hr : readBytes 10 (s ++ [10] ++ rest) = some (s ++ [10], rest) := by
      have := readBytes_terminated s rest hs
      simpa using this
    simp only [Packet.nextLine, hr]
    rw [stringsTrimSuffix_of_not_suffix _ _ (not_crlf_suffix s hcr), stringsTrimSuffix_append]
  · cases hr : readBytes 10 input with
    | none =>
      have := (readBytes_none_iff input).1 hr
      simp [Packet.nextLine, hr, this]
    | some p =>
      have : 10 ∈ input := by
        by_contra hcon
        rw [(readBytes_none_iff input).2 hcon] at hr
        cases hr
      simp [Packet.nextLine, hr, this]
  · intro h
    simp [Packet.nextLine, (readBytes_none_iff input).2 h]

/-- Witness for `nextLine_strips_line_end`: the line `Via: x` ended by CRLF and
by LF, followed by `rest`, and an input without line feed. -/
theorem nextLine_strips_line_end_witness :
    Packet.nextLine ⟨asciiBytes "Via: x\r\nrest", 0⟩
        = ((asciiBytes "Via: x", none), ⟨asciiBytes "rest", 0⟩) ∧
      Packet.nextLine ⟨asciiBytes "Via: x\nrest", 0⟩
        = ((asciiBytes "Via: x", none), ⟨asciiBytes "rest", 0⟩) ∧
      (Packet.nextLine ⟨asciiBytes "Via: x", 0⟩).1 = ([], some .EOF) :=
  ⟨(nextLine_strips_line_end (asciiBytes "Via: x") (asciiBytes "rest") [] 0 (by decide)).1,
   (nextLine_strips_line_end (asciiBytes "Via: x") (asciiBytes "rest") [] 0 (by decide)).2.1
     (by decide),
   by decide⟩

/-- C13 as stated fails: for `s` the one letter a followed by a carriage return
(no line feed in it), `nextLine` on `s` followed by a bare LF does not return
`s`: the carriage return is taken for part of a CRLF line end and stripped. -/
theorem nextLine_lf_after_cr_strips_cr :
    (10 : Byte) ∉ [97, 13] ∧
      (Packet.nextLine ⟨[97, 13] ++ [10] ++ [], 0⟩).1 = ([97], none) ∧
      (Packet.nextLine ⟨[97, 13] ++ [10] ++ [], 0⟩).1.1 ≠ [97, 13] := by
  decide

/-! ### Reading a header value from the Context (C14) -/

theorem stringsSplit_length (sep : Char) (s : List Char) :
    (stringsSplit sep s).length = s.count sep + 1 := by
  induction s with
  | nil => simp [stringsSplit]
  | cons c rest ih =>
    by_cases hc : c = sep
    · subst hc
      simp [stringsSplit, ih]
    · rw [stringsSplit, if_neg hc]
      have hcount : (c :: rest).count sep = rest.count sep := by
        rw [List.count_cons]
        have : (c == sep) = false := by simpa using hc
        simp [this]
      rw [hcount, ← ih]
      cases hsp : stringsSplit sep rest with
      | nil => rw [hsp] at ih; simp at ih
      | cons part parts => simp

/-- What `GetHeader` does with a value that holds a colon: the rendered header
splits into more than two parts and the empty string is returned. -/
theorem GetHeader_colon_in_value (c : Context) (key : String) (header : Header)
    (rest : List Header) (hfirst : c.request.GetHeaders key = header :: rest)
    (hcolon : ':' ∈ header.value.data) : c.GetHeader key = "" := by
  have hlen : 3 ≤ (stringsSplit ':' header.String.data).length := by
    rw [stringsSplit_length]
    have h1 : header.String.data = header.name.data ++ ([':', ' '] ++ header.value.data) := by
      simp [Header.String, String.data_append]
    have h2 : 0 < header.value.data.count ':' := List.count_pos_iff.2 hcolon
    rw [h1, List.count_append, List.count_append]
    have h3 : List.count ':' [':', ' '] = 1 := by decide
    omega
  unfold Context.GetHeader
  rw [hfirst]
  simp only
  split
  · rename_i hsp
    rw [hsp] at hlen
    simp at hlen
  · rfl

/-- C14, the code at a failing input: the request has a To header whose value is
a SIP URI, and `GetHeader("To")` returns the empty string, while the value of
the colon-free Expires header is returned trimmed. -/
theorem GetHeader_sip_uri_value_is_empty :
    contextWithHeaders.request.GetHeaders "To"
        = [{ name := "To", value := "<sip:1000@10.0.0.9>" }] ∧
      contextWithHeaders.GetHeader "To" = "" ∧
      contextWithHeaders.GetHeader "Expires" = "3600" := by
  decide

/-! ### Observer registry: register, then notify (C12) -/

theorem lookup_filter_ne_self (data : List (String × ObserverEntry)) (key : String) :
    (data.filter fun e => e.1 != key).lookup key = none := by
  induction data with
  | nil => rfl
  | cons kv rest ih =>
    obtain ⟨k, v⟩ := kv
    by_cases hk : k = key
    · simp [List.filter, hk, ih]
    · have h1 : (k != key) = true := by simpa using hk
      have h2 : (key == k) = false := by simpa using fun h => hk h.symm
      simp only [List.filter, h1, List.lookup, h2]
      exact ih

theorem lookup_filter_ne_other (data : List (String × ObserverEntry)) (key other : String)
    (h : other ≠ key) :
    (data.filter fun e => e.1 != key).lookup other = data.lookup other := by
  induction data with
  | nil => rfl
  | cons kv rest ih =>
    obtain ⟨k, v⟩ := kv
    by_cases hk : k = key
    · subst hk
      have h2 : (other == k) = false := by simpa using h
      simp only [List.filter, bne_self_eq_false, List.lookup, h2]
      exact ih
    · have h1 : (k != key) = true := by simpa using hk
      simp only [List.filter, h1, List.lookup]
      cases hok : other == k with
      | true => rfl
      | false => exact ih

/-- C12: after `Register(k, ttl, cb)` at time `now` and `Notify(k, args...)` at a
time `t` before the deadline `now + ttl`, exactly one callback invocation has
been made, that of `cb` with `k` and `args`; if `cb` returned true the registry
holds no entry for `k`, otherwise the entry is still there; and the entry of
every other key is what it was before the two calls. -/
theorem Observer_register_then_notify (o : Observer) (now t ttl : Nat) (k : String)
    (cb : ObserverHandler) (args : List String) (hlive : t < now + ttl) :
    ((o.Register now k ttl cb).Notify t k args).calls = o.calls ++ [(k, args)] ∧
    (cb k args = true → ((o.Register now k ttl cb).Notify t k args).data.lookup k = none) ∧
    (cb k args = false → ((o.Register now k ttl cb).Notify t k args).data.lookup k
      = some { fn := cb, deadline := now + ttl }) ∧
    (∀ other, other ≠ k →
      ((o.Register now k ttl cb).Notify t k args).data.lookup other = o.data.lookup other) := by
  have hl : (o.Register now k ttl cb).data.lookup k
      = some { fn := cb, deadline := now + ttl } := by
    simp [Observer.Register, List.lookup]
  refine ⟨?_, ?_, ?_, ?_⟩
  · simp only [Observer.Notify, hl, if_pos hlive]
    rfl
  · intro hdone
    simp only [Observer.Notify, hl, if_pos hlive, hdone, if_true]
    exact lookup_filter_ne_self _ _
  · intro hnot
    simp only [Observer.Notify, hl, if_pos hlive, hnot]
    simpa using hl
  · intro other hne
    have hreg : (o.Register now k ttl cb).data.lookup other = o.data.lookup other := by
      have h2 : (other == k) = false := by simpa using hne
      simp only [Observer.Register, List.lookup, h2]
      exact lookup_filter_ne_other _ _ _ hne
    simp only [Observer.Notify, hl, if_pos hlive]
    by_cases hcb : cb k args = true
    · rw [if_pos hcb, lookup_filter_ne_other _ _ _ hne]
      exact hreg
    · rw [if_neg hcb]
      exact hreg

/-- Witness for `Observer_register_then_notify`: the scenario of `TestObserver`.
Key 1 is registered on the empty registry and notified one second later; and
after registering keys 1 and 2 and notifying both, the registry is empty and
each callback was invoked once. -/
theorem Observer_register_then_notify_witness :
    (((NewObserver.Register 0 "1" 6000 observerDone).Notify 1000 "1" []).calls
        = NewObserver.calls ++ [("1", [])]) ∧
      ((observerTwoKeys.Notify 1000 "1" []).Notify 1000 "2" []).keys = [] ∧
      ((observerTwoKeys.Notify 1000 "1" []).Notify 1000 "2" []).calls
        = [("1", []), ("2", [])] ∧
      (observerTwoKeys.Notify 1000 "1" []).keys = ["2"] :=
  ⟨(Observer_register_then_notify NewObserver 0 1000 6000 "1" observerDone [] (by decide)).1,
   by decide, by decide, by decide⟩

end Sip
